import Mathlib

/-!
# html-to-excel-render: the table transcription engine of `src/main/main.go`

A shallow embedding of `ExtractStyles`, `processTableRows`, `addImageToCell`,
`processHtmlTheadTag` and of the row-batch loop of `generateXlsxFile`, followed by
theorems about them.

Conventions of the embedding

* Go `string` is `String`; the library functions of package `strings` work on the
  list of characters.
* Go `int` is `Int` kept inside 64 bits: every `+`, `-` of the source goes through
  `wrapInt` (two's complement wrap-around, as the Go specification defines it).
* Go `float64` is `F64`, the IEEE 754 binary64 values with round-to-nearest-even: the
  float operations of the source are the conversion `float64(n)`, the product and the
  comparison `x <= 0`.
* A run-time panic (index out of range) and an exhausted iteration budget are values
  of `Fault`; loops that the source bounds by `len(rows)` carry that bound.
-/

namespace HtmlToExcel

/-! ## Go library functions used by the source -/

/-- Two's complement wrap-around of a Go `int` (64 bits). -/
def wrapInt (x : Int) : Int :=
  (x + 9223372036854775808) % 18446744073709551616 - 9223372036854775808

/-- Split of a character list at every occurrence of `sep`; the empty list gives one
empty piece, as `strings.Split` does. -/
def splitChars (sep : Char) : List Char → List (List Char)
  | [] => [[]]
  | c :: cs =>
    if c = sep then [] :: splitChars sep cs
    else
      match splitChars sep cs with
      | [] => [[c]]
      | p :: ps => (c :: p) :: ps

/-- Go `strings.Split(s, sep)` for a one-character separator. -/
def stringsSplit (s : String) (sep : Char) : List String :=
  (splitChars sep s.data).map String.mk

/-- Removal of the leading and trailing characters that belong to `cutset`. -/
def trimChars (cutset : List Char) (l : List Char) : List Char :=
  ((l.dropWhile (fun c => decide (c ∈ cutset))).reverse.dropWhile
    (fun c => decide (c ∈ cutset))).reverse

/-- Go `strings.Trim(s, cutset)`. -/
def stringsTrim (s : String) (cutset : String) : String :=
  String.mk (trimChars cutset.data s.data)

/-- Go `strings.Contains(s, substr)`. -/
def stringsContains (s : String) (substr : String) : Bool :=
  s.data.tails.any (fun t => substr.data.isPrefixOf t)

/-- Outcome of the digit loop of `strconv.ParseUint(s, 10, 64)`. -/
inductive UintResult where
  | ok (n : Nat)
  | invalidText
  | outOfRange
  deriving DecidableEq, Repr

/-- Value of a decimal digit character. -/
def digitValue (c : Char) : Option Nat :=
  if 48 ≤ c.toNat ∧ c.toNat ≤ 57 then some (c.toNat - 48) else none

/-- The digit loop of `strconv.ParseUint` in base 10: a character that is not a digit
is a syntax error, a value above `2^64 - 1` is a range error, whichever comes first. -/
def parseUintLoop : List Char → Nat → UintResult
  | [], n => UintResult.ok n
  | c :: cs, n =>
    match digitValue c with
    | none => UintResult.invalidText
    | some d =>
      if 18446744073709551615 < n * 10 + d then UintResult.outOfRange
      else parseUintLoop cs (n * 10 + d)

/-- Go `strconv.Atoi(s)` on a 64-bit platform: the returned `int` and whether the
returned error is non-nil. A syntax error returns 0; a range error returns the nearest
representable value. -/
def Atoi (s : String) : Int × Bool :=
  match s.data with
  | [] => (0, true)
  | c :: cs =>
    let neg := decide (c = '-')
    let body := if c = '-' ∨ c = '+' then cs else c :: cs
    match body with
    | [] => (0, true)
    | b :: bs =>
      match parseUintLoop (b :: bs) 0 with
      | UintResult.invalidText => (0, true)
      | UintResult.outOfRange =>
        if neg then (-9223372036854775808, true) else (9223372036854775807, true)
      | UintResult.ok un =>
        if neg then
          if 9223372036854775808 < un then (-9223372036854775808, true)
          else (-(un : Int), false)
        else
          if 9223372036854775808 ≤ un then (9223372036854775807, true)
          else ((un : Int), false)

/-! ## Go `float64` -/

/-- The values of IEEE 754 binary64: NaN, the two infinities, and the finite values
`(-1)^neg * m * 2^e`. A float64 has `m < 2^53`, `-1074 <= e <= 971` and `e = -1074`
whenever `m < 2^52` (subnormal numbers and the zeros). -/
inductive F64 where
  | nan
  | inf (neg : Bool)
  | fin (neg : Bool) (m : Nat) (e : Int)
  deriving DecidableEq, Repr

namespace F64

/-- Number of binary digits of `m`, by halving; the first argument bounds the number
of rounds. -/
def bitLengthAux : Nat → Nat → Nat
  | 0, _ => 0
  | fuel + 1, m => if m = 0 then 0 else bitLengthAux fuel (m / 2) + 1

/-- Number of binary digits of `m` (0 for 0). -/
def bitLength (m : Nat) : Nat := bitLengthAux m m

/-- Final step of rounding: a mantissa that reached `2^53` by the round-up is
renormalised, and an exponent above 971 overflows to infinity. -/
def pack (neg : Bool) (m : Nat) (e : Int) : F64 :=
  if m = 9007199254740992 then
    if 971 < e + 1 then inf neg else fin neg 4503599627370496 (e + 1)
  else if 971 < e then inf neg
  else fin neg m e

/-- The float64 nearest to `(-1)^neg * m * 2^e`, ties to the even mantissa: the result
keeps 53 binary digits, or fewer at the exponent floor -1074. -/
def roundNearestEven (neg : Bool) (m : Nat) (e : Int) : F64 :=
  if m = 0 then fin neg 0 (-1074)
  else
    let e1 := max (e + (bitLength m : Int) - 53) (-1074)
    if e1 ≤ e then pack neg (m * 2 ^ (e - e1).toNat) e1
    else
      let d := (e1 - e).toNat
      let q := m / 2 ^ d
      let r := m % 2 ^ d
      let half := 2 ^ (d - 1)
      pack neg (if half < r ∨ (r = half ∧ q % 2 = 1) then q + 1 else q) e1

/-- The Go conversion `float64(n)` of an `int`. -/
def ofInt (n : Int) : F64 := roundNearestEven (decide (n < 0)) n.natAbs 0

/-- The Go product `x * y` of two `float64`. -/
def mul : F64 → F64 → F64
  | nan, _ => nan
  | _, nan => nan
  | inf s, inf t => inf (xor s t)
  | inf s, fin t m _ => if m = 0 then nan else inf (xor s t)
  | fin s m _, inf t => if m = 0 then nan else inf (xor s t)
  | fin s m1 e1, fin t m2 e2 => roundNearestEven (xor s t) (m1 * m2) (e1 + e2)

/-- The Go comparison `x <= 0`. -/
def leZero : F64 → Bool
  | nan => false
  | inf neg => neg
  | fin neg m _ => neg || decide (m = 0)

/-- The Go constant `0` as a `float64`. -/
def zero : F64 := fin false 0 (-1074)

/-- Whether `x > 0`. -/
def isPositive : F64 → Bool
  | nan => false
  | inf neg => !neg
  | fin neg m _ => !neg && decide (m ≠ 0)

/-- Whether the triple is the one of a float64 (see `F64`). -/
def isFloat64 : F64 → Bool
  | fin _ m e =>
    decide (m < 9007199254740992) && decide (-1074 ≤ e) && decide (e ≤ 971) &&
      decide (m < 4503599627370496 → e = -1074)
  | _ => true

/-- The value `x` is positive and at least `2^L`. -/
def AtLeastPow (L : Int) : F64 → Prop
  | inf neg => neg = false
  | fin neg m e => neg = false ∧ m ≠ 0 ∧ (e < L → 2 ^ (L - e).toNat ≤ m)
  | nan => False

end F64

/-! ## Declarations of the repository that are not under `src/` -/

/-- The named constants that `main.go` uses and that are declared in another file of
package `main`. They are parameters of the embedding. -/
structure Consts where
  StyleAttrName : String
  ColspanAttrName : String
  TextAlignStyleAttr : String
  WordWrapStyleAttr : String
  BreakWordWrapStyleAttrValue : String
  WidthStyleAttr : String
  MinWidthStyleAttr : String
  MaxWidthStyleAttr : String
  HeightStyleAttr : String
  MinHeightStyleAttr : String
  MaxHeightStyleAttr : String
  BorderStyleAttr : String
  BorderStyleAttrValue : String
  BorderInheritanceStyleAttr : String
  BorderInheritanceStyleAttrValue : String
  FontSizeStyleAttr : String
  FontWeightStyleAttr : String
  TextVerticalAlignStyleAttr : String
  ValueTypeAttrName : String
  FloatValueType : String
  StringValueType : String
  DateValueType : String
  BooleanValueType : String
  deriving DecidableEq, Repr

/-- The part of `config.New()` that `main.go` reads: `conf.SizeTransform`. -/
structure Config where
  PxToExcelWidthMultiplier : F64
  PxToExcelHeightMultiplier : F64
  deriving DecidableEq

/-- Modelled from the spec: the constants of package `main` are declared outside `src/`.
The property names and the four value types are the ones of the spec's property table
(section 4.1) and data model (section 3). The spec does not spell out the border
properties, the word-wrap marker and the value-type marker; the entries given for them
here are placeholders that only closed examples use. -/
def specConsts : Consts where
  StyleAttrName := "style"
  ColspanAttrName := "colspan"
  TextAlignStyleAttr := "text-align"
  WordWrapStyleAttr := "white-space"
  BreakWordWrapStyleAttrValue := "normal"
  WidthStyleAttr := "width"
  MinWidthStyleAttr := "min-width"
  MaxWidthStyleAttr := "max-width"
  HeightStyleAttr := "height"
  MinHeightStyleAttr := "min-height"
  MaxHeightStyleAttr := "max-height"
  BorderStyleAttr := "border"
  BorderStyleAttrValue := "1px solid"
  BorderInheritanceStyleAttr := "border-inherit"
  BorderInheritanceStyleAttrValue := "inherit"
  FontSizeStyleAttr := "font-size"
  FontWeightStyleAttr := "font-weight"
  TextVerticalAlignStyleAttr := "vertical-align"
  ValueTypeAttrName := "data-value-type"
  FloatValueType := "float"
  StringValueType := "string"
  DateValueType := "date"
  BooleanValueType := "boolean"

/-- Modelled from the spec: the px to spreadsheet-unit multipliers are process-wide
configuration outside `src/`; closed examples use the float64 1.0 for both. -/
def unitConfig : Config where
  PxToExcelWidthMultiplier := F64.fin false 4503599627370496 (-52)
  PxToExcelHeightMultiplier := F64.fin false 4503599627370496 (-52)

/-! ## `types.HtmlStyle`, `NewHtmlStyle`, `ExtractStyles` -/

/-- The struct `types.HtmlStyle` of `src/types/html_style.go`. -/
structure HtmlStyle where
  TextAlign : String
  WordWrap : Bool
  Width : F64
  Height : F64
  BorderInheritance : Bool
  BorderStyle : Bool
  FontSize : F64
  IsBold : Bool
  Colspan : Int
  VerticalAlign : String
  CellValueType : String
  deriving DecidableEq

/-- `NewHtmlStyle`: the composite literal names every field except `CellValueType`,
which therefore has the zero value of `types.ValueType`, the empty string. -/
def NewHtmlStyle : HtmlStyle where
  TextAlign := ""
  WordWrap := false
  Width := F64.zero
  Height := F64.zero
  BorderInheritance := false
  BorderStyle := false
  FontSize := F64.zero
  IsBold := false
  Colspan := 0
  VerticalAlign := ""
  CellValueType := ""

/-- The `switch attr` of `ExtractStyles`, a first-match chain over the case labels in
source order. In the inner `switch cellType` only the last case has a body: Go cases do
not fall through, so the three empty cases leave the style as it is. -/
def switchAttr (k : Consts) (conf : Config) (resultStyle : HtmlStyle) (attr value : String) :
    HtmlStyle :=
  if attr = k.ColspanAttrName then
    { resultStyle with Colspan := (Atoi value).1 }
  else if attr = k.TextAlignStyleAttr then
    { resultStyle with TextAlign := value }
  else if attr = k.WordWrapStyleAttr then
    { resultStyle with WordWrap := decide (value = k.BreakWordWrapStyleAttrValue) }
  else if attr = k.WidthStyleAttr then
    { resultStyle with
      Width := F64.mul (F64.ofInt (Atoi (stringsTrim value " px")).1) conf.PxToExcelWidthMultiplier }
  else if attr = k.MinWidthStyleAttr then
    if resultStyle.Width.leZero = true then
      { resultStyle with
        Width := F64.mul (F64.ofInt (Atoi (stringsTrim value " px")).1) conf.PxToExcelWidthMultiplier }
    else resultStyle
  else if attr = k.MaxWidthStyleAttr then
    if resultStyle.Width.leZero = true then
      { resultStyle with
        Width := F64.mul (F64.ofInt (Atoi (stringsTrim value " px")).1) conf.PxToExcelWidthMultiplier }
    else resultStyle
  else if attr = k.HeightStyleAttr then
    { resultStyle with
      Height := F64.mul (F64.ofInt (Atoi (stringsTrim value " px")).1) conf.PxToExcelHeightMultiplier }
  else if attr = k.MinHeightStyleAttr then
    if resultStyle.Height.leZero = true then
      { resultStyle with
        Height := F64.mul (F64.ofInt (Atoi (stringsTrim value " px")).1) conf.PxToExcelHeightMultiplier }
    else resultStyle
  else if attr = k.MaxHeightStyleAttr then
    if resultStyle.Height.leZero = true then
      { resultStyle with
        Height := F64.mul (F64.ofInt (Atoi (stringsTrim value " px")).1) conf.PxToExcelHeightMultiplier }
    else resultStyle
  else if attr = k.BorderStyleAttr then
    { resultStyle with BorderStyle := decide (value = k.BorderStyleAttrValue) }
  else if attr = k.BorderInheritanceStyleAttr then
    { resultStyle with BorderStyle := decide (value = k.BorderInheritanceStyleAttrValue) }
  else if attr = k.FontSizeStyleAttr then
    { resultStyle with FontSize := (F64.ofInt (Atoi (stringsTrim value " px")).1) }
  else if attr = k.FontWeightStyleAttr then
    { resultStyle with IsBold := stringsContains value "bold" }
  else if attr = k.TextVerticalAlignStyleAttr then
    { resultStyle with VerticalAlign := if value = "middle" then "center" else value }
  else if attr = k.ValueTypeAttrName then
    if value = k.FloatValueType then resultStyle
    else if value = k.StringValueType then resultStyle
    else if value = k.DateValueType then resultStyle
    else if value = k.BooleanValueType then { resultStyle with CellValueType := value }
    else resultStyle
  else resultStyle

/-- The body of the `for _, e := range entries` loop of `ExtractStyles`. -/
def applyEntry (k : Consts) (conf : Config) (resultStyle : HtmlStyle) (e : String) :
    HtmlStyle :=
  if e = "" then resultStyle
  else
    let parts := stringsSplit e ':'
    if parts.length < 2 then resultStyle
    else
      let value := stringsTrim (parts.getD 1 "") " "
      let attr := stringsTrim (parts.getD 0 "") " "
      switchAttr k conf resultStyle attr value

/-- `ExtractStyles(node *xml.AttributeNode)`: `none` is the nil node, `some s` an
attribute whose content is `s`. -/
def ExtractStyles (k : Consts) (conf : Config) (node : Option String) : HtmlStyle :=
  match node with
  | none => NewHtmlStyle
  | some styleStr => (stringsSplit styleStr ';').foldl (applyEntry k conf) NewHtmlStyle

/-! ## Vocabulary for statements about style strings -/

/-- Go `strings.Join(ds, ";")`: the style string whose declarations are `ds`. -/
def joinDecls : List String → String
  | [] => ""
  | d :: ds =>
    match ds with
    | [] => d
    | _ :: _ => d ++ ";" ++ joinDecls ds

/-- The case labels of `switch attr` in source order. -/
def Consts.caseLabels (k : Consts) : List String :=
  [k.ColspanAttrName, k.TextAlignStyleAttr, k.WordWrapStyleAttr, k.WidthStyleAttr,
    k.MinWidthStyleAttr, k.MaxWidthStyleAttr, k.HeightStyleAttr, k.MinHeightStyleAttr,
    k.MaxHeightStyleAttr, k.BorderStyleAttr, k.BorderInheritanceStyleAttr,
    k.FontSizeStyleAttr, k.FontWeightStyleAttr, k.TextVerticalAlignStyleAttr,
    k.ValueTypeAttrName]

/-- A text that survives the parsing of a declaration unchanged: no `;`, no `:`, no
space at either end. -/
def CleanText (n : String) : Prop :=
  ';' ∉ n.data ∧ ':' ∉ n.data ∧ trimChars [' '] n.data = n.data

instance (n : String) : Decidable (CleanText n) := by unfold CleanText; infer_instance

/-- What the Go compiler and the use as CSS property names give for the constants: the
case labels of `switch attr` are pairwise different, the four value types are pairwise
different, and each of them is a clean text. -/
def Consts.WellFormed (k : Consts) : Prop :=
  k.caseLabels.Pairwise (fun a b => b ≠ a) ∧
    [k.FloatValueType, k.StringValueType, k.DateValueType, k.BooleanValueType].Pairwise
      (fun a b => b ≠ a) ∧
    (∀ n ∈ k.caseLabels, CleanText n) ∧
    (∀ n ∈ [k.FloatValueType, k.StringValueType, k.DateValueType, k.BooleanValueType],
      CleanText n)

instance (k : Consts) : Decidable k.WellFormed := by unfold Consts.WellFormed; infer_instance

/-- The fields of `HtmlStyle` that `ExtractStyles` can write. -/
inductive Field where
  | colspan
  | textAlign
  | wordWrap
  | width
  | height
  | borderStyle
  | fontSize
  | isBold
  | verticalAlign
  | cellValueType
  deriving DecidableEq, Repr

/-- The field that the case selected by `attr` in `switch attr` writes. -/
def attrTarget (k : Consts) (attr : String) : Option Field :=
  if attr = k.ColspanAttrName then some Field.colspan
  else if attr = k.TextAlignStyleAttr then some Field.textAlign
  else if attr = k.WordWrapStyleAttr then some Field.wordWrap
  else if attr = k.WidthStyleAttr then some Field.width
  else if attr = k.MinWidthStyleAttr then some Field.width
  else if attr = k.MaxWidthStyleAttr then some Field.width
  else if attr = k.HeightStyleAttr then some Field.height
  else if attr = k.MinHeightStyleAttr then some Field.height
  else if attr = k.MaxHeightStyleAttr then some Field.height
  else if attr = k.BorderStyleAttr then some Field.borderStyle
  else if attr = k.BorderInheritanceStyleAttr then some Field.borderStyle
  else if attr = k.FontSizeStyleAttr then some Field.fontSize
  else if attr = k.FontWeightStyleAttr then some Field.isBold
  else if attr = k.TextVerticalAlignStyleAttr then some Field.verticalAlign
  else if attr = k.ValueTypeAttrName then some Field.cellValueType
  else none

/-- The field that the declaration `e` writes, `none` for a declaration that the loop
of `ExtractStyles` skips or does not recognise. -/
def entryTarget (k : Consts) (e : String) : Option Field :=
  if e = "" then none
  else if (stringsSplit e ':').length < 2 then none
  else attrTarget k (stringsTrim ((stringsSplit e ':').getD 0 "") " ")

/-- The number that a string of decimal digits denotes, read left to right from the
accumulator `acc`. -/
def decimalValue (l : List Char) (acc : Nat) : Nat :=
  l.foldl (fun a c => a * 10 + (digitValue c).getD 0) acc

/-- Whether `c` is a decimal digit. -/
def isDigitChar (c : Char) : Bool := (digitValue c).isSome

/-- Whether the text starts with a minus sign. -/
def atoiNeg (t : String) : Bool :=
  match t.data with
  | [] => false
  | c :: _ => decide (c = '-')

/-- The text after its optional sign. -/
def atoiBody (t : String) : List Char :=
  match t.data with
  | [] => []
  | c :: cs => if c = '-' ∨ c = '+' then cs else c :: cs

/-- The text is not a decimal number: nothing follows the optional sign, or a character
that is not a digit is met while the digits read so far fit 64 bits. -/
def NotANumber (t : String) : Prop :=
  atoiBody t = [] ∨
    ((atoiBody t).dropWhile isDigitChar ≠ [] ∧
      decimalValue ((atoiBody t).takeWhile isDigitChar) 0 ≤ 18446744073709551615)

instance (t : String) : Decidable (NotANumber t) := by unfold NotANumber; infer_instance

/-- The int that goes with the error of `Atoi` on a text that does not parse: 0 for a
text that is not a number, else the end of the `int` range on the side of the sign. -/
def atoiFailureValue (t : String) : Int :=
  if NotANumber t then 0
  else if atoiNeg t then -9223372036854775808
  else 9223372036854775807

/-- A run of `n` spaces. -/
def spaces (n : Nat) : String := String.mk (List.replicate n ' ')

/-- The declaration `name: <w> px` with `a`, `b`, `c`, `d`, `e` spaces before the name,
before the colon, before the number, before the unit and after the unit. -/
def pxDecl (name : String) (w a b c d e : Nat) : String :=
  spaces a ++ name ++ spaces b ++ ":" ++
    (spaces c ++ toString w ++ spaces d ++ "px" ++ spaces e)

/-- A `min-*` or `max-*` declaration as a style string spells it: which of the two,
the spaces around the property name, and the text after the colon. -/
structure FallbackDecl where
  isMin : Bool
  padLeft : Nat
  padRight : Nat
  value : String
  deriving DecidableEq

/-- The text of a `min-width` / `max-width` declaration. -/
def minMaxWidthDecl (k : Consts) (p : FallbackDecl) : String :=
  spaces p.padLeft ++ (if p.isMin then k.MinWidthStyleAttr else k.MaxWidthStyleAttr) ++
    spaces p.padRight ++ ":" ++ p.value

/-- The text of a `min-height` / `max-height` declaration. -/
def minMaxHeightDecl (k : Consts) (p : FallbackDecl) : String :=
  spaces p.padLeft ++ (if p.isMin then k.MinHeightStyleAttr else k.MaxHeightStyleAttr) ++
    spaces p.padRight ++ ":" ++ p.value

/-- What one declaration does to the style, as a value: the update of one field, the
conditional update of `Width` or `Height`, or nothing. -/
inductive Action where
  | skip
  | setColspan (n : Int)
  | setTextAlign (s : String)
  | setWordWrap (b : Bool)
  | setWidth (q : F64)
  | fallbackWidth (q : F64)
  | setHeight (q : F64)
  | fallbackHeight (q : F64)
  | setBorderStyle (b : Bool)
  | setFontSize (q : F64)
  | setIsBold (b : Bool)
  | setVerticalAlign (s : String)
  | setCellValueType (s : String)

/-- The effect of an action on a style. -/
def Action.run (st : HtmlStyle) : Action → HtmlStyle
  | Action.skip => st
  | Action.setColspan n => { st with Colspan := n }
  | Action.setTextAlign s => { st with TextAlign := s }
  | Action.setWordWrap b => { st with WordWrap := b }
  | Action.setWidth q => { st with Width := q }
  | Action.fallbackWidth q => if st.Width.leZero = true then { st with Width := q } else st
  | Action.setHeight q => { st with Height := q }
  | Action.fallbackHeight q => if st.Height.leZero = true then { st with Height := q } else st
  | Action.setBorderStyle b => { st with BorderStyle := b }
  | Action.setFontSize q => { st with FontSize := q }
  | Action.setIsBold b => { st with IsBold := b }
  | Action.setVerticalAlign s => { st with VerticalAlign := s }
  | Action.setCellValueType s => { st with CellValueType := s }

/-- The field an action reads and writes. -/
def Action.target : Action → Option Field
  | Action.skip => none
  | Action.setColspan _ => some Field.colspan
  | Action.setTextAlign _ => some Field.textAlign
  | Action.setWordWrap _ => some Field.wordWrap
  | Action.setWidth _ => some Field.width
  | Action.fallbackWidth _ => some Field.width
  | Action.setHeight _ => some Field.height
  | Action.fallbackHeight _ => some Field.height
  | Action.setBorderStyle _ => some Field.borderStyle
  | Action.setFontSize _ => some Field.fontSize
  | Action.setIsBold _ => some Field.isBold
  | Action.setVerticalAlign _ => some Field.verticalAlign
  | Action.setCellValueType _ => some Field.cellValueType

/-- The action that `switch attr` performs for `attr` and `value`. -/
def switchAction (k : Consts) (conf : Config) (attr value : String) : Action :=
  if attr = k.ColspanAttrName then Action.setColspan (Atoi value).1
  else if attr = k.TextAlignStyleAttr then Action.setTextAlign value
  else if attr = k.WordWrapStyleAttr then
    Action.setWordWrap (decide (value = k.BreakWordWrapStyleAttrValue))
  else if attr = k.WidthStyleAttr then
    Action.setWidth (F64.mul (F64.ofInt (Atoi (stringsTrim value " px")).1) conf.PxToExcelWidthMultiplier)
  else if attr = k.MinWidthStyleAttr then
    Action.fallbackWidth
      (F64.mul (F64.ofInt (Atoi (stringsTrim value " px")).1) conf.PxToExcelWidthMultiplier)
  else if attr = k.MaxWidthStyleAttr then
    Action.fallbackWidth
      (F64.mul (F64.ofInt (Atoi (stringsTrim value " px")).1) conf.PxToExcelWidthMultiplier)
  else if attr = k.HeightStyleAttr then
    Action.setHeight (F64.mul (F64.ofInt (Atoi (stringsTrim value " px")).1) conf.PxToExcelHeightMultiplier)
  else if attr = k.MinHeightStyleAttr then
    Action.fallbackHeight
      (F64.mul (F64.ofInt (Atoi (stringsTrim value " px")).1) conf.PxToExcelHeightMultiplier)
  else if attr = k.MaxHeightStyleAttr then
    Action.fallbackHeight
      (F64.mul (F64.ofInt (Atoi (stringsTrim value " px")).1) conf.PxToExcelHeightMultiplier)
  else if attr = k.BorderStyleAttr then
    Action.setBorderStyle (decide (value = k.BorderStyleAttrValue))
  else if attr = k.BorderInheritanceStyleAttr then
    Action.setBorderStyle (decide (value = k.BorderInheritanceStyleAttrValue))
  else if attr = k.FontSizeStyleAttr then
    Action.setFontSize (F64.ofInt (Atoi (stringsTrim value " px")).1)
  else if attr = k.FontWeightStyleAttr then Action.setIsBold (stringsContains value "bold")
  else if attr = k.TextVerticalAlignStyleAttr then
    Action.setVerticalAlign (if value = "middle" then "center" else value)
  else if attr = k.ValueTypeAttrName then
    if value = k.FloatValueType then Action.skip
    else if value = k.StringValueType then Action.skip
    else if value = k.DateValueType then Action.skip
    else if value = k.BooleanValueType then Action.setCellValueType value
    else Action.skip
  else Action.skip

/-- The action of the loop body of `ExtractStyles` for the declaration `e`. -/
def entryAction (k : Consts) (conf : Config) (e : String) : Action :=
  if e = "" then Action.skip
  else if (stringsSplit e ':').length < 2 then Action.skip
  else
    switchAction k conf (stringsTrim ((stringsSplit e ':').getD 0 "") " ")
      (stringsTrim ((stringsSplit e ':').getD 1 "") " ")

/-! ## The parsed document and the document writer -/

/-- A run that does not reach its end: a Go run-time panic on `rows[i]`, or a loop
that is still running when the iteration budget of the embedding is used up. -/
inductive Fault where
  | indexOutOfRange
  | outOfFuel
  deriving DecidableEq, Repr

/-- The three outcomes of `os.Stat(path)` that `addImageToCell` tells apart. -/
inductive StatResult where
  | found
  | notExist
  | otherError
  deriving DecidableEq, Repr

/-- The file system as `addImageToCell` sees it. -/
structure Env where
  Stat : String → StatResult

/-- An `img` element. It is modelled with its `src` and `alt` attributes present:
`Value()` on the nil attribute of an element without them is a nil dereference, which
the embedding leaves out. -/
structure ImgNode where
  src : String
  alt : String
  deriving DecidableEq

/-- A `th` or `td` element: its attributes, its text content and the result of
`Search(XpathImg)` on it. -/
structure CellNode where
  attrs : List (String × String)
  content : String
  imgs : List ImgNode
  deriving DecidableEq

/-- A `tr` element: its attributes and the results of `Search(XpathTh)` and
`Search(XpathTd)` on it. -/
structure RowNode where
  attrs : List (String × String)
  ths : List CellNode
  tds : List CellNode
  deriving DecidableEq

/-- `node.Attribute(name)`: `none` is the nil attribute node. -/
def Attribute (attrs : List (String × String)) (name : String) : Option String :=
  attrs.lookup name

/-- One operation received by the output document, with the position it was issued
at. `SetCellFloatValue` keeps the text handed to `strconv.ParseFloat`. -/
inductive Call where
  | SetCellValue (sheet : String) (col row : Int) (value : String)
  | SetCellFloatValue (sheet : String) (col row : Int) (text : String)
  | ApplyColumnStyle (sheet : String) (col : Int) (style : HtmlStyle)
  | ApplyCellStyle (sheet : String) (col row : Int) (style : HtmlStyle)
  | ApplyRowStyle (sheet : String) (row : Int) (style : HtmlStyle)
  | AddPicture (sheet : String) (col row : Int) (path : String) (format : String)
  deriving DecidableEq

/-- Whether an operation writes a cell value (a text or a number). -/
def Call.isValueWrite : Call → Bool
  | Call.SetCellValue _ _ _ _ => true
  | Call.SetCellFloatValue _ _ _ _ => true
  | _ => false

/-- The fields of `generator.ExcelizeGenerator` that `getExcelizeGenerator` lists;
`OpenedFile` is the sequence of operations the document has received. -/
structure ExcelizeGenerator where
  OpenedFile : List Call
  Filename : String
  CurrentSheet : String
  CurrentCol : Int
  CurrentRow : Int
  deriving DecidableEq

namespace ExcelizeGenerator

/-- Modelled from the spec: package `generator` is not under `src/`. `AddRow()`
"advances row index by 1, resets column index to 1" (section 4.2). -/
def AddRow (g : ExcelizeGenerator) : ExcelizeGenerator :=
  { g with CurrentRow := wrapInt (g.CurrentRow + 1), CurrentCol := 1 }

/-- Modelled from the spec: package `generator` is not under `src/`. A text write
"writes at the current cursor" (section 4.2); the column advance that the spec attaches
to a write is the `generator.CurrentCol += 1` of the calling loop in `main.go`. -/
def SetCellValue (g : ExcelizeGenerator) (value : String) : ExcelizeGenerator :=
  { g with OpenedFile :=
      g.OpenedFile ++ [Call.SetCellValue g.CurrentSheet g.CurrentCol g.CurrentRow value] }

/-- Modelled from the spec: package `generator` is not under `src/`. A number write
"writes at the current cursor" (section 4.2). -/
def SetCellFloatValue (g : ExcelizeGenerator) (text : String) : ExcelizeGenerator :=
  { g with OpenedFile :=
      g.OpenedFile ++ [Call.SetCellFloatValue g.CurrentSheet g.CurrentCol g.CurrentRow text] }

/-- Modelled from the spec: package `generator` is not under `src/`. Column styles
bind "to the current column index" (section 4.2). -/
def ApplyColumnStyle (g : ExcelizeGenerator) (style : HtmlStyle) : ExcelizeGenerator :=
  { g with OpenedFile :=
      g.OpenedFile ++ [Call.ApplyColumnStyle g.CurrentSheet g.CurrentCol style] }

/-- Modelled from the spec: package `generator` is not under `src/`. Cell styles bind
"to the single current cell" (section 4.2). -/
def ApplyCellStyle (g : ExcelizeGenerator) (style : HtmlStyle) : ExcelizeGenerator :=
  { g with OpenedFile :=
      g.OpenedFile ++ [Call.ApplyCellStyle g.CurrentSheet g.CurrentCol g.CurrentRow style] }

/-- Modelled from the spec: package `generator` is not under `src/`. Row styles bind
"to the current row" (section 4.2). -/
def ApplyRowStyle (g : ExcelizeGenerator) (style : HtmlStyle) : ExcelizeGenerator :=
  { g with OpenedFile :=
      g.OpenedFile ++ [Call.ApplyRowStyle g.CurrentSheet g.CurrentRow style] }

end ExcelizeGenerator

/-- The options literal handed to `AddPicture` in `addImageToCell`. -/
def pictureFormat : String :=
  "\x7b\"autofit\":true, \"lock_aspect_ratio\": true, \"positioning\": \"oneCell\"\x7d"

/-! ## `addImageToCell`, `processHtmlTheadTag`, `processTableRows` -/

/-- `addImageToCell`: the `if os.IsNotExist(err)` block writes the alt text and has no
`return`; `GetCoords` and `OpenedFile.AddPicture` follow on every path. -/
def addImageToCell (env : Env) (img : ImgNode) (generator : ExcelizeGenerator) :
    ExcelizeGenerator :=
  let imgSrc := img.src
  let imgAlt := img.alt
  let generator :=
    match env.Stat imgSrc with
    | StatResult.notExist => generator.SetCellValue imgAlt
    | _ => generator
  { generator with OpenedFile :=
      generator.OpenedFile ++
        [Call.AddPicture generator.CurrentSheet generator.CurrentCol generator.CurrentRow
          imgSrc pictureFormat] }

/-- The body of `for _, theadTh := range theadTrThs` in `processHtmlTheadTag`.
`colIndex++` only changes a local variable that nothing reads. -/
def processHtmlTheadTh (k : Consts) (conf : Config) (generator : ExcelizeGenerator)
    (theadTh : CellNode) : ExcelizeGenerator :=
  let thStyle := Attribute theadTh.attrs k.StyleAttrName
  let style := ExtractStyles k conf thStyle
  let style :=
    match Attribute theadTh.attrs k.ColspanAttrName with
    | some c => { style with Colspan := (Atoi c).1 }
    | none => style
  let content := theadTh.content
  let generator :=
    if content ≠ "" then
      let generator :=
        if style.CellValueType = k.FloatValueType then generator.SetCellFloatValue content
        else generator
      if style.CellValueType = k.StringValueType then generator.SetCellValue content
      else generator
    else generator
  (generator.ApplyColumnStyle style).ApplyCellStyle style

/-- The body of `for _, theadTr := range theadTrs` in `processHtmlTheadTag`. The
attribute node `thStyle` has no attributes of its own, so `thColspan` is nil. -/
def processHtmlTheadTr (k : Consts) (conf : Config) (generator : ExcelizeGenerator)
    (theadTr : RowNode) : ExcelizeGenerator :=
  let generator := generator.AddRow
  let generator := theadTr.ths.foldl (processHtmlTheadTh k conf) generator
  match Attribute theadTr.attrs k.StyleAttrName with
  | some s => generator.ApplyRowStyle (ExtractStyles k conf (some s))
  | none => generator

/-- `processHtmlTheadTag(theadTrs, generator)`. -/
def processHtmlTheadTag (k : Consts) (conf : Config) (theadTrs : List RowNode)
    (generator : ExcelizeGenerator) : ExcelizeGenerator :=
  theadTrs.foldl (processHtmlTheadTr k conf) generator

/-- The `imgs` / `cellValue` part shared by the `th` and `td` loops of
`processTableRows`: every image goes to `addImageToCell`; without images a non-empty
content is written as text. -/
def writeCellContent (env : Env) (cell : CellNode) (generator : ExcelizeGenerator) :
    ExcelizeGenerator :=
  if cell.imgs.length > 0 then
    cell.imgs.foldl (fun g img => addImageToCell env img g) generator
  else if cell.content ≠ "" then generator.SetCellValue cell.content
  else generator

/-- The body of `for _, theadTh := range theadTrs` in `processTableRows`. -/
def processRowTh (k : Consts) (conf : Config) (env : Env) (generator : ExcelizeGenerator)
    (theadTh : CellNode) : ExcelizeGenerator :=
  let thStyle := Attribute theadTh.attrs k.StyleAttrName
  let generator :=
    match thStyle with
    | some s =>
      let style := ExtractStyles k conf (some s)
      let style :=
        match Attribute theadTh.attrs k.ColspanAttrName with
        | some c => { style with Colspan := (Atoi c).1 }
        | none => style
      (generator.ApplyColumnStyle style).ApplyCellStyle style
    | none => generator
  let generator := writeCellContent env theadTh generator
  { generator with CurrentCol := wrapInt (generator.CurrentCol + 1) }

/-- The body of `for _, td := range cells` in `processTableRows`. -/
def processRowTd (k : Consts) (conf : Config) (env : Env) (generator : ExcelizeGenerator)
    (td : CellNode) : ExcelizeGenerator :=
  let tdStyle := Attribute td.attrs "style"
  let generator :=
    match tdStyle with
    | some s =>
      let cellStyle := ExtractStyles k conf (some s)
      let cellStyle :=
        match Attribute td.attrs k.ColspanAttrName with
        | some c => { cellStyle with Colspan := (Atoi c).1 }
        | none => cellStyle
      generator.ApplyCellStyle cellStyle
    | none => generator
  let generator := writeCellContent env td generator
  { generator with CurrentCol := wrapInt (generator.CurrentCol + 1) }

/-- The body of the row loop of `processTableRows` from `tr := rows[i]` on. -/
def processRow (k : Consts) (conf : Config) (env : Env) (generator : ExcelizeGenerator)
    (tr : RowNode) : ExcelizeGenerator :=
  let generator := generator.AddRow
  let generator := { generator with CurrentCol := 1 }
  let generator := tr.ths.foldl (processRowTh k conf env) generator
  let generator := { generator with CurrentCol := 1 }
  let generator := tr.tds.foldl (processRowTd k conf env) generator
  match Attribute tr.attrs "style" with
  | some s => generator.ApplyRowStyle (ExtractStyles k conf (some s))
  | none => generator

/-- `rows[i]`: `none` is the index-out-of-range panic. -/
def rowAt (rows : List RowNode) (i : Int) : Option RowNode :=
  if 0 ≤ i then rows.get? i.toNat else none

/-- The loop `for i := offset; i <= last; i++` of `processTableRows`, where `last` is
the value of `offset + rowsNumber - 1`. The state pairs the generator with the indices
`i` whose body has run, in order. The body runs only for `0 <= i < len(rows)` and `i`
grows, so `len(rows) + 1` rounds are enough; the first argument counts them. -/
def processTableRowsLoop (k : Consts) (conf : Config) (env : Env) (rows : List RowNode)
    (last : Int) : Nat → Int → ExcelizeGenerator × List Nat →
    Except Fault (ExcelizeGenerator × List Nat)
  | 0, _, _ => Except.error Fault.outOfFuel
  | fuel + 1, i, st =>
    if i ≤ last then
      if i ≥ (rows.length : Int) then Except.ok st
      else
        match rowAt rows i with
        | none => Except.error Fault.indexOutOfRange
        | some tr =>
          processTableRowsLoop k conf env rows last fuel (wrapInt (i + 1))
            (processRow k conf env st.1 tr, st.2 ++ [i.toNat])
    else Except.ok st

/-- `processTableRows(rows, generator, offset, rowsNumber)`. The result pairs the
generator with the indices of the rows whose body has run, in order. -/
def processTableRows (k : Consts) (conf : Config) (env : Env) (rows : List RowNode)
    (generator : ExcelizeGenerator) (offset rowsNumber : Int) :
    Except Fault (ExcelizeGenerator × List Nat) :=
  if offset ≥ (rows.length : Int) then Except.ok (generator, [])
  else
    let rowsNumber := if (rows.length : Int) < rowsNumber then (rows.length : Int) else rowsNumber
    processTableRowsLoop k conf env rows (wrapInt (wrapInt (offset + rowsNumber) - 1))
      (rows.length + 1) offset (generator, [])

/-- The loop `for rowsProceeded < len(rows)` of `generateXlsxFile`, with
`packSize := batchSize`. Nothing in the source bounds its number of rounds; the first
argument is the iteration budget and `Fault.outOfFuel` says it was used up with the
loop condition still true. -/
def generateXlsxFileLoop (k : Consts) (conf : Config) (env : Env) (rows : List RowNode)
    (packSize : Int) : Nat → Int → ExcelizeGenerator × List Nat →
    Except Fault (ExcelizeGenerator × List Nat)
  | 0, _, _ => Except.error Fault.outOfFuel
  | fuel + 1, rowsProceeded, st =>
    if rowsProceeded < (rows.length : Int) then
      match processTableRows k conf env rows st.1 rowsProceeded packSize with
      | Except.error e => Except.error e
      | Except.ok r =>
        generateXlsxFileLoop k conf env rows packSize fuel (wrapInt (rowsProceeded + packSize))
          (r.1, st.2 ++ r.2)
    else Except.ok st

/-- The row part of one table in `generateXlsxFile`: `rowsProceeded := 0`, then the
batch loop. -/
def generateXlsxFileRows (k : Consts) (conf : Config) (env : Env) (fuel : Nat)
    (rows : List RowNode) (generator : ExcelizeGenerator) (batchSize : Int) :
    Except Fault (ExcelizeGenerator × List Nat) :=
  generateXlsxFileLoop k conf env rows batchSize fuel 0 (generator, [])

set_option maxRecDepth 100000

/-! ## Lemmas on `float64` -/

theorem F64.bitLengthAux_zero (fuel : Nat) : F64.bitLengthAux fuel 0 = 0 := by
  cases fuel <;> simp [F64.bitLengthAux]

theorem F64.bitLengthAux_spec (fuel m : Nat) (hf : m ≤ fuel) (hm : m ≠ 0) :
    2 ^ F64.bitLengthAux fuel m ≤ 2 * m ∧ m < 2 ^ F64.bitLengthAux fuel m := by
  induction fuel generalizing m with
  | zero => omega
  | succ fuel ih =>
    rw [F64.bitLengthAux, if_neg hm]
    by_cases h2 : m / 2 = 0
    · rw [h2, F64.bitLengthAux_zero]
      have : m = 1 := by omega
      subst this
      decide
    · obtain ⟨i1, i2⟩ := ih (m / 2) (by omega) h2
      rw [pow_succ]
      constructor <;> omega

/-- The number of binary digits brackets the number: `2^(b-1) <= m < 2^b`. -/
theorem F64.bitLength_spec (m : Nat) (hm : m ≠ 0) :
    2 ^ (F64.bitLength m - 1) ≤ m ∧ m < 2 ^ F64.bitLength m := by
  obtain ⟨h1, h2⟩ := F64.bitLengthAux_spec m m (Nat.le_refl m) hm
  unfold F64.bitLength
  refine ⟨?_, h2⟩
  have hpos : F64.bitLengthAux m m ≠ 0 := by
    intro h0
    rw [h0] at h2
    simp at h2
    exact hm h2
  obtain ⟨b, hb⟩ := Nat.exists_eq_succ_of_ne_zero hpos
  rw [hb] at h1 ⊢
  rw [Nat.succ_sub_one]
  rw [Nat.succ_eq_add_one, pow_succ] at h1
  omega

theorem F64.pack_atLeast (L : Int) (m : Nat) (e : Int) (hm : m ≠ 0)
    (h : e < L → 2 ^ (L - e).toNat ≤ m) : F64.AtLeastPow L (F64.pack false m e) := by
  unfold F64.pack
  split_ifs with h1 h2 h3
  · rfl
  · refine ⟨rfl, by decide, ?_⟩
    intro hl
    have h4 := h (by omega)
    rw [h1] at h4
    have h5 : (L - e).toNat ≤ 53 := by
      by_contra hc
      have : 2 ^ 54 ≤ 2 ^ (L - e).toNat := Nat.pow_le_pow_right (by decide) (by omega)
      have h6 : (2 : Nat) ^ 54 = 18014398509481984 := by norm_num
      omega
    have h7 : (2 : Nat) ^ (L - (e + 1)).toNat ≤ 2 ^ 52 :=
      Nat.pow_le_pow_right (by decide) (by omega)
    have h8 : (2 : Nat) ^ 52 = 4503599627370496 := by norm_num
    omega
  · rfl
  · exact ⟨rfl, hm, h⟩

/-- Rounding does not go below a power of two, from the exponent floor on, that the
exact value reaches. -/
theorem F64.roundNearestEven_atLeast (L : Int) (hL : -1074 ≤ L) (m : Nat) (e : Int)
    (hm : m ≠ 0) (h : e < L → 2 ^ (L - e).toNat ≤ m) :
    F64.AtLeastPow L (F64.roundNearestEven false m e) := by
  unfold F64.roundNearestEven
  rw [if_neg hm]
  have hb := (F64.bitLength_spec m hm).1
  have hbpos : F64.bitLength m ≠ 0 := by
    intro h0
    have := (F64.bitLength_spec m hm).2
    rw [h0] at this
    simp at this
    exact hm this
  simp only []
  generalize hE : max (e + (F64.bitLength m : Int) - 53) (-1074) = e1
  have hE1 : -1074 ≤ e1 := by omega
  have hE2 : e + (F64.bitLength m : Int) - 53 ≤ e1 := by omega
  have hE3 : e1 = -1074 ∨ e1 = e + (F64.bitLength m : Int) - 53 := by omega
  by_cases h1 : e1 ≤ e
  · rw [if_pos h1]
    apply F64.pack_atLeast
    · exact Nat.mul_ne_zero hm (by positivity)
    · intro hl
      by_cases h2 : e < L
      · have h3 := h h2
        have h4 : (L - e1).toNat = (L - e).toNat + (e - e1).toNat := by omega
        rw [h4, pow_add]
        exact Nat.mul_le_mul_right _ h3
      · have h4 : (L - e1).toNat ≤ (e - e1).toNat := by omega
        calc 2 ^ (L - e1).toNat ≤ 2 ^ (e - e1).toNat := Nat.pow_le_pow_right (by decide) h4
          _ ≤ m * 2 ^ (e - e1).toNat := Nat.le_mul_of_pos_left _ (Nat.pos_of_ne_zero hm)
  · rw [if_neg h1]
    have hdm : 2 ^ (e1 - e).toNat ≤ m := by
      rcases hE3 with h3 | h3
      · have h4 := h (by omega)
        exact Nat.le_trans (Nat.pow_le_pow_right (by decide) (by omega)) h4
      · exact Nat.le_trans (Nat.pow_le_pow_right (by decide) (by omega)) hb
    have hq : 1 ≤ m / 2 ^ (e1 - e).toNat := Nat.div_pos hdm (by positivity)
    apply F64.pack_atLeast
    · split_ifs <;> omega
    · intro hl
      have h3 := h (by omega)
      have h4 : (L - e).toNat = (L - e1).toNat + (e1 - e).toNat := by omega
      rw [h4, pow_add] at h3
      have h5 : 2 ^ (L - e1).toNat ≤ m / 2 ^ (e1 - e).toNat :=
        (Nat.le_div_iff_mul_le (by positivity)).mpr h3
      split_ifs <;> omega

theorem F64.leZero_of_atLeast (L : Int) (x : F64) (h : F64.AtLeastPow L x) :
    x.leZero = false := by
  cases x with
  | nan => exact absurd h (by simp [F64.AtLeastPow])
  | inf neg =>
    simp only [F64.AtLeastPow] at h
    simp [F64.leZero, h]
  | fin neg m e =>
    simp only [F64.AtLeastPow] at h
    simp [F64.leZero, h.1, h.2.1]

theorem F64.ofInt_atLeast (n : Int) (hn : 0 < n) : F64.AtLeastPow 0 (F64.ofInt n) := by
  unfold F64.ofInt
  have h1 : decide (n < 0) = false := by simp; omega
  rw [h1]
  exact F64.roundNearestEven_atLeast 0 (by decide) _ 0 (by omega) (by intro h; omega)

/-- The product of a value that is at least 1 with a positive float64 is positive: it
is at least the least positive float64, `2^-1074`. -/
theorem F64.mul_atLeast (x y : F64) (hx : F64.AtLeastPow 0 x) (hy : y.isFloat64 = true)
    (hpos : y.isPositive = true) : F64.AtLeastPow (-1074) (F64.mul x y) := by
  cases y with
  | nan => simp [F64.isPositive] at hpos
  | inf t =>
    simp only [F64.isPositive, Bool.not_eq_true'] at hpos
    subst hpos
    cases x with
    | nan => exact absurd hx (by simp [F64.AtLeastPow])
    | inf s =>
      simp only [F64.AtLeastPow] at hx
      subst hx
      simp [F64.mul, F64.AtLeastPow]
    | fin s m e =>
      simp only [F64.AtLeastPow] at hx
      simp [F64.mul, F64.AtLeastPow, hx.1, hx.2.1]
  | fin t mm me =>
    simp only [F64.isPositive, Bool.and_eq_true, Bool.not_eq_true', decide_eq_true_eq] at hpos
    obtain ⟨ht, hmm⟩ := hpos
    subst ht
    simp only [F64.isFloat64, Bool.and_eq_true, decide_eq_true_eq] at hy
    have hme : -1074 ≤ me := hy.1.1.2
    cases x with
    | nan => exact absurd hx (by simp [F64.AtLeastPow])
    | inf s =>
      simp only [F64.AtLeastPow] at hx
      subst hx
      simp [F64.mul, F64.AtLeastPow, hmm]
    | fin s m e =>
      simp only [F64.AtLeastPow] at hx
      obtain ⟨hs, hm, hle⟩ := hx
      subst hs
      simp only [F64.mul, Bool.xor_false]
      apply F64.roundNearestEven_atLeast (-1074) (by decide)
      · exact Nat.mul_ne_zero hm hmm
      · intro hl
        have h3 := hle (by omega)
        have h4 : (-1074 - (e + me)).toNat ≤ (0 - e).toNat := by omega
        calc 2 ^ (-1074 - (e + me)).toNat ≤ 2 ^ (0 - e).toNat :=
              Nat.pow_le_pow_right (by decide) h4
          _ ≤ m := h3
          _ ≤ m * mm := Nat.le_mul_of_pos_right _ (Nat.pos_of_ne_zero hmm)

/-- For an int `w > 0` and a positive float64 `y` the product `float64(w) * y` is not
`<= 0`. -/
theorem F64.mul_ofInt_pos (w : Int) (hw : 0 < w) (y : F64) (hy : y.isFloat64 = true)
    (hpos : y.isPositive = true) : (F64.mul (F64.ofInt w) y).leZero = false :=
  F64.leZero_of_atLeast _ _ (F64.mul_atLeast _ y (F64.ofInt_atLeast w hw) hy hpos)

/-! ## Arithmetic and list lemmas -/

theorem wrapInt_eq_self {x : Int} (h1 : -9223372036854775808 ≤ x)
    (h2 : x < 9223372036854775808) : wrapInt x = x := by
  unfold wrapInt
  omega

theorem rowAt_natCast (rows : List RowNode) (n : Nat) :
    rowAt rows (n : Int) = rows.get? n := by
  simp [rowAt]

theorem drop_eq_cons_of_get? {α : Type} (l : List α) (n : Nat) (a : α)
    (h : l.get? n = some a) : l.drop n = a :: l.drop (n + 1) := by
  induction l generalizing n with
  | nil => simp at h
  | cons x xs ih =>
    cases n with
    | zero => simp at h; simp [h]
    | succ m =>
      have h2 : xs.get? m = some a := by simpa using h
      simpa using ih m h2

/-! ## The row loop of `processTableRows` -/

/-- The row loop started at an index `n` inside the slice runs the body for the next
`min (last + 1 - n) (len - n)` rows and stops. -/
theorem processTableRowsLoop_spec (k : Consts) (conf : Config) (env : Env)
    (rows : List RowNode) (hlen : (rows.length : Int) < 4611686018427387904) (last : Int) :
    ∀ (fuel n : Nat) (g : ExcelizeGenerator) (vis : List Nat),
      n ≤ rows.length → rows.length - n + 1 ≤ fuel →
      processTableRowsLoop k conf env rows last fuel (n : Int) (g, vis) =
        Except.ok
          (((rows.drop n).take (min (last + 1 - n) ((rows.length : Int) - n)).toNat).foldl
              (processRow k conf env) g,
            vis ++ List.range' n (min (last + 1 - n) ((rows.length : Int) - n)).toNat) := by
  intro fuel
  induction fuel with
  | zero => intro n g vis _ h; omega
  | succ fuel ih =>
    intro n g vis hn hfuel
    unfold processTableRowsLoop
    by_cases h1 : (n : Int) ≤ last
    · by_cases h2 : (n : Int) ≥ (rows.length : Int)
      · have hc : (min (last + 1 - (n : Int)) ((rows.length : Int) - n)).toNat = 0 := by omega
        simp [h1, h2, hc]
      · have hlt : n < rows.length := by omega
        have hget : rows.get? n = some (rows.get ⟨n, hlt⟩) := List.get?_eq_get hlt
        have hw : wrapInt ((n : Int) + 1) = ((n + 1 : Nat) : Int) := by
          rw [wrapInt_eq_self] <;> push_cast <;> omega
        have hc : (min (last + 1 - (n : Int)) ((rows.length : Int) - n)).toNat =
            (min (last + 1 - ((n + 1 : Nat) : Int))
              ((rows.length : Int) - ((n + 1 : Nat) : Int))).toNat + 1 := by
          push_cast; omega
        have hdrop := drop_eq_cons_of_get? rows n _ hget
        simp only [h1, h2, if_true, if_false, rowAt_natCast, hget, hw, Int.toNat_ofNat]
        rw [ih (n + 1) _ _ (by omega) (by omega), hc, hdrop]
        simp only [List.take_succ_cons, List.foldl_cons, List.range'_succ, List.append_assoc,
          List.singleton_append]
    · have hc : (min (last + 1 - (n : Int)) ((rows.length : Int) - n)).toNat = 0 := by omega
      simp [h1, hc]

/-- One call of `processTableRows` with an offset that is not negative and a batch
size above the least `int`. -/
theorem processTableRows_spec (k : Consts) (conf : Config) (env : Env)
    (rows : List RowNode) (hlen : (rows.length : Int) < 4611686018427387904)
    (g : ExcelizeGenerator) (offset : Nat) (batchSize : Int)
    (hB1 : -9223372036854775808 < batchSize) (hB2 : batchSize < 9223372036854775808) :
    processTableRows k conf env rows g (offset : Int) batchSize =
      Except.ok
        (((rows.drop offset).take (min batchSize ((rows.length : Int) - offset)).toNat).foldl
            (processRow k conf env) g,
          List.range' offset (min batchSize ((rows.length : Int) - offset)).toNat) := by
  unfold processTableRows
  by_cases h : (offset : Int) ≥ (rows.length : Int)
  · have hc : (min batchSize ((rows.length : Int) - offset)).toNat = 0 := by omega
    simp [h, hc]
  · simp only [h, if_false]
    by_cases hb : (rows.length : Int) < batchSize
    · simp only [hb, if_true]
      have hl : wrapInt (wrapInt ((offset : Int) + rows.length) - 1) =
          (offset : Int) + rows.length - 1 := by
        rw [wrapInt_eq_self (x := (offset : Int) + rows.length) (by omega) (by omega)]
        exact wrapInt_eq_self (by omega) (by omega)
      have hc : (min ((offset : Int) + rows.length - 1 + 1 - offset)
          ((rows.length : Int) - offset)).toNat =
          (min batchSize ((rows.length : Int) - offset)).toNat := by omega
      rw [hl, processTableRowsLoop_spec k conf env rows hlen _ _ offset g []
        (by omega) (by omega), hc, List.nil_append]
    · simp only [hb, if_false]
      have hl : wrapInt (wrapInt ((offset : Int) + batchSize) - 1) =
          (offset : Int) + batchSize - 1 := by
        rw [wrapInt_eq_self (x := (offset : Int) + batchSize) (by omega) (by omega)]
        exact wrapInt_eq_self (by omega) (by omega)
      have hc : (min ((offset : Int) + batchSize - 1 + 1 - offset)
          ((rows.length : Int) - offset)).toNat =
          (min batchSize ((rows.length : Int) - offset)).toNat := by omega
      rw [hl, processTableRowsLoop_spec k conf env rows hlen _ _ offset g []
        (by omega) (by omega), hc, List.nil_append]

/-- The round budget `len(rows) + 1` of the row loop is never the reason for a call of
`processTableRows` to stop: the call returns or panics on `rows[i]`. -/
theorem processTableRows_within_budget (k : Consts) (conf : Config) (env : Env)
    (rows : List RowNode) (hlen : (rows.length : Int) < 4611686018427387904)
    (g : ExcelizeGenerator) (offset batchSize : Int) :
    processTableRows k conf env rows g offset batchSize ≠ Except.error Fault.outOfFuel := by
  unfold processTableRows
  by_cases h : offset ≥ (rows.length : Int)
  · simp [h]
  · simp only [h, if_false]
    by_cases h0 : 0 ≤ offset
    · obtain ⟨n, rfl⟩ := Int.eq_ofNat_of_zero_le h0
      rw [processTableRowsLoop_spec k conf env rows hlen _ _ n g [] (by omega) (by omega)]
      simp
    · unfold processTableRowsLoop
      have hr : rowAt rows offset = none := by simp [rowAt, h0]
      split_ifs <;> simp [hr]

/-! ## The batch loop of `generateXlsxFile` -/

theorem take_min_append_drop {α : Type} (l : List α) (b : Nat) :
    l.take (min b l.length) ++ l.drop b = l := by
  by_cases h : b ≤ l.length
  · rw [Nat.min_eq_left h]; exact List.take_append_drop b l
  · have h2 : l.length ≤ b := by omega
    rw [Nat.min_eq_right h2, List.drop_eq_nil_of_le h2, List.take_of_length_le (Nat.le_refl _),
      List.append_nil]

theorem range'_min_append (n b L : Nat) :
    List.range' n (min b L) ++ List.range' (n + b) (L - b) = List.range' n L := by
  by_cases h : b ≤ L
  · rw [Nat.min_eq_left h, List.range'_append_1]
    congr 1; omega
  · have h2 : L ≤ b := by omega
    have h3 : L - b = 0 := by omega
    rw [Nat.min_eq_right h2, h3]; simp

/-- The batch loop entered with `rowsProceeded = n` transcribes the rows from index
`n` on, each once and in order, within `len(rows) - n + 1` rounds. -/
theorem generateXlsxFileLoop_spec (k : Consts) (conf : Config) (env : Env)
    (rows : List RowNode) (hlen : (rows.length : Int) < 4611686018427387904)
    (batchSize : Int) (hB1 : 1 ≤ batchSize) (hB2 : batchSize < 9223372036854775808) :
    ∀ (fuel n : Nat) (g : ExcelizeGenerator) (vis : List Nat),
      ((n : Int) + batchSize < 9223372036854775808 ∨ rows.length ≤ n) →
      rows.length - n + 1 ≤ fuel →
      generateXlsxFileLoop k conf env rows batchSize fuel (n : Int) (g, vis) =
        Except.ok ((rows.drop n).foldl (processRow k conf env) g,
          vis ++ List.range' n (rows.length - n)) := by
  intro fuel
  induction fuel with
  | zero => intro n g vis _ h; omega
  | succ fuel ih =>
    intro n g vis hov hfuel
    unfold generateXlsxFileLoop
    by_cases h : (n : Int) < (rows.length : Int)
    · have hn : n < rows.length := by omega
      have hw : wrapInt ((n : Int) + batchSize) = ((n + batchSize.toNat : Nat) : Int) := by
        rw [wrapInt_eq_self (by omega) (by omega)]; push_cast; omega
      have hc : (min batchSize ((rows.length : Int) - n)).toNat =
          min batchSize.toNat (rows.drop n).length := by
        rw [List.length_drop]; omega
      simp only [h, if_true, processTableRows_spec k conf env rows hlen g n batchSize
        (by omega) hB2, hw]
      rw [ih (n + batchSize.toNat) _ _ (by omega) (by omega), ← List.foldl_append, hc,
        ← List.drop_drop, take_min_append_drop, List.append_assoc, List.length_drop]
      have hr : rows.length - (n + batchSize.toNat) = rows.length - n - batchSize.toNat := by
        omega
      rw [hr, range'_min_append]
    · have h2 : rows.length ≤ n := by omega
      have h3 : rows.length - n = 0 := by omega
      simp [h, List.drop_eq_nil_of_le h2, h3]

/-! ## Theorems about the batched transcription of rows -/

/-- C1: for every list of M body rows and every batch size B with 1 <= B, the batch
loop of generateXlsxFile ends within M + 1 rounds, the row indices whose body ran are
exactly 0, 1, ..., M-1 in ascending order, and the generator is the one obtained by
running the row body once per row in order. B ranges over the values of Go int and M
over the lengths a Go slice can have. -/
theorem generateXlsxFileRows_covers_each_row_once (k : Consts) (conf : Config) (env : Env)
    (rows : List RowNode) (g : ExcelizeGenerator) (batchSize : Int) (fuel : Nat)
    (hlen : (rows.length : Int) < 4611686018427387904)
    (hB1 : 1 ≤ batchSize) (hB2 : batchSize < 9223372036854775808)
    (hfuel : rows.length + 1 ≤ fuel) :
    generateXlsxFileRows k conf env fuel rows g batchSize =
      Except.ok (rows.foldl (processRow k conf env) g, List.range rows.length) := by
  unfold generateXlsxFileRows
  have h := generateXlsxFileLoop_spec k conf env rows hlen batchSize hB1 hB2 fuel 0 g []
    (by left; simpa using hB2) (by omega)
  simp only [Nat.cast_zero, List.drop_zero, List.nil_append, Nat.sub_zero] at h
  rw [h, List.range_eq_range']

/-- Witness of C1 at M = 23 rows and B = 10. -/
theorem generateXlsxFileRows_covers_each_row_once_witness :
    generateXlsxFileRows specConsts unitConfig ⟨fun _ => StatResult.notExist⟩ 24
        (List.replicate 23 ⟨[], [], []⟩) ⟨[], "", "DataSheet 0", 1, 0⟩ 10 =
      Except.ok
        ((List.replicate 23 (⟨[], [], []⟩ : RowNode)).foldl
            (processRow specConsts unitConfig ⟨fun _ => StatResult.notExist⟩)
            ⟨[], "", "DataSheet 0", 1, 0⟩,
          List.range (List.replicate 23 (⟨[], [], []⟩ : RowNode)).length) :=
  generateXlsxFileRows_covers_each_row_once specConsts unitConfig
    ⟨fun _ => StatResult.notExist⟩ (List.replicate 23 ⟨[], [], []⟩)
    ⟨[], "", "DataSheet 0", 1, 0⟩ 10 24 (by decide) (by decide) (by decide) (by decide)

/-- The three calls of the batch loop for 23 rows and batch size 10 run the row body
for the indices 0..9, 10..19 and 20..22. -/
theorem processTableRows_batches_of_ten :
    (processTableRows specConsts unitConfig ⟨fun _ => StatResult.notExist⟩
        (List.replicate 23 ⟨[], [], []⟩) ⟨[], "", "DataSheet 0", 1, 0⟩ 0 10).toOption.map
        Prod.snd = some [0, 1, 2, 3, 4, 5, 6, 7, 8, 9] ∧
    (processTableRows specConsts unitConfig ⟨fun _ => StatResult.notExist⟩
        (List.replicate 23 ⟨[], [], []⟩) ⟨[], "", "DataSheet 0", 1, 0⟩ 10 10).toOption.map
        Prod.snd = some [10, 11, 12, 13, 14, 15, 16, 17, 18, 19] ∧
    (processTableRows specConsts unitConfig ⟨fun _ => StatResult.notExist⟩
        (List.replicate 23 ⟨[], [], []⟩) ⟨[], "", "DataSheet 0", 1, 0⟩ 20 10).toOption.map
        Prod.snd = some [20, 21, 22] := by
  decide

/-- C7 (as amended): for every row list, every offset >= 0 and every batch size other
than the least int, one call of processTableRows returns without a panic, the row
indices whose body ran are exactly offset, ..., offset + min(batchSize, len - offset) - 1
in ascending order, all of them inside the slice, the generator is the one obtained by
running the row body on those rows in order, and for offset >= len the call leaves the
generator unchanged and runs no body. -/
theorem processTableRows_processes_range (k : Consts) (conf : Config) (env : Env)
    (rows : List RowNode) (g : ExcelizeGenerator) (offset : Nat) (batchSize : Int)
    (hlen : (rows.length : Int) < 4611686018427387904)
    (hB1 : -9223372036854775808 < batchSize) (hB2 : batchSize < 9223372036854775808) :
    processTableRows k conf env rows g (offset : Int) batchSize =
        Except.ok
          (((rows.drop offset).take
              (min batchSize ((rows.length : Int) - offset)).toNat).foldl
              (processRow k conf env) g,
            List.range' offset (min batchSize ((rows.length : Int) - offset)).toNat) ∧
      (∀ i ∈ List.range' offset (min batchSize ((rows.length : Int) - offset)).toNat,
        i < rows.length) ∧
      (rows.length ≤ offset →
        processTableRows k conf env rows g (offset : Int) batchSize = Except.ok (g, [])) := by
  refine ⟨processTableRows_spec k conf env rows hlen g offset batchSize hB1 hB2, ?_, ?_⟩
  · intro i hi
    rw [List.mem_range'_1] at hi
    omega
  · intro h
    unfold processTableRows
    have h2 : (offset : Int) ≥ (rows.length : Int) := by omega
    simp [h2]

/-- Witness of C7 at three rows, offset 1 and batch size 7. -/
theorem processTableRows_processes_range_witness :
    processTableRows specConsts unitConfig ⟨fun _ => StatResult.notExist⟩
          (List.replicate 3 ⟨[], [], []⟩) ⟨[], "", "DataSheet 0", 1, 0⟩ ((1 : Nat) : Int) 7 =
        Except.ok
          ((((List.replicate 3 (⟨[], [], []⟩ : RowNode)).drop 1).take
              (min (7 : Int)
                (((List.replicate 3 (⟨[], [], []⟩ : RowNode)).length : Int) - (1 : Nat))).toNat).foldl
              (processRow specConsts unitConfig ⟨fun _ => StatResult.notExist⟩)
              ⟨[], "", "DataSheet 0", 1, 0⟩,
            List.range' 1
              (min (7 : Int)
                (((List.replicate 3 (⟨[], [], []⟩ : RowNode)).length : Int) - (1 : Nat))).toNat) ∧
      (∀ i ∈ List.range' 1
          (min (7 : Int)
            (((List.replicate 3 (⟨[], [], []⟩ : RowNode)).length : Int) - (1 : Nat))).toNat,
        i < (List.replicate 3 (⟨[], [], []⟩ : RowNode)).length) ∧
      ((List.replicate 3 (⟨[], [], []⟩ : RowNode)).length ≤ 1 →
        processTableRows specConsts unitConfig ⟨fun _ => StatResult.notExist⟩
          (List.replicate 3 ⟨[], [], []⟩) ⟨[], "", "DataSheet 0", 1, 0⟩ ((1 : Nat) : Int) 7 =
          Except.ok (⟨[], "", "DataSheet 0", 1, 0⟩, [])) :=
  processTableRows_processes_range specConsts unitConfig ⟨fun _ => StatResult.notExist⟩
    (List.replicate 3 ⟨[], [], []⟩) ⟨[], "", "DataSheet 0", 1, 0⟩ 1 7
    (by decide) (by decide) (by decide)

/-- C7 (counterexample): with one row, offset 0 and the least int as batch size the
expression offset + rowsNumber - 1 wraps around to the greatest int, so the body runs
for row 0, while the range [0, 0 + min(batchSize, 1 - 0) - 1] of the claim is empty. -/
theorem processTableRows_least_int_counterexample :
    (processTableRows specConsts unitConfig ⟨fun _ => StatResult.notExist⟩
        [⟨[], [], []⟩] ⟨[], "", "DataSheet 0", 1, 0⟩ 0 (-9223372036854775808)).toOption.map
        Prod.snd = some [0] ∧
      List.range' 0 (min (-9223372036854775808 : Int) (1 - 0)).toNat = [] := by
  decide

/-- C10: for batch size 0 and a row list that is not empty, one round of the batch
loop of generateXlsxFile runs no row body, leaves the generator unchanged and leaves
rowsProceeded at 0 with the loop condition still true; hence no iteration budget
suffices: the loop never ends and no row is transcribed. -/
theorem generateXlsxFileRows_zero_batch_never_ends (k : Consts) (conf : Config) (env : Env)
    (rows : List RowNode) (g : ExcelizeGenerator) (hrows : rows ≠ []) :
    processTableRows k conf env rows g 0 0 = Except.ok (g, []) ∧
      wrapInt (0 + 0) = 0 ∧ (0 : Int) < (rows.length : Int) ∧
      ∀ fuel : Nat,
        generateXlsxFileRows k conf env fuel rows g 0 = Except.error Fault.outOfFuel := by
  have hpos : (0 : Int) < (rows.length : Int) := by
    cases rows with
    | nil => exact absurd rfl hrows
    | cons r rs => simp only [List.length_cons]; omega
  have hstep : processTableRows k conf env rows g 0 0 = Except.ok (g, []) := by
    unfold processTableRows
    have h1 : ¬ ((0 : Int) ≥ (rows.length : Int)) := by omega
    have h2 : ¬ ((rows.length : Int) < 0) := by omega
    have h3 : wrapInt (wrapInt (0 + 0) - 1) = -1 := by decide
    simp only [h1, h2, if_false, h3]
    unfold processTableRowsLoop
    simp
  refine ⟨hstep, by decide, hpos, ?_⟩
  intro fuel
  unfold generateXlsxFileRows
  induction fuel with
  | zero => rfl
  | succ fuel ih =>
    unfold generateXlsxFileLoop
    have hw : wrapInt (0 + 0) = 0 := by decide
    simp only [hpos, if_true, hstep, hw, List.append_nil]
    exact ih

/-- Witness of C10 at a one-row table. -/
theorem generateXlsxFileRows_zero_batch_never_ends_witness :
    processTableRows specConsts unitConfig ⟨fun _ => StatResult.notExist⟩
        [⟨[], [], []⟩] ⟨[], "", "DataSheet 0", 1, 0⟩ 0 0 =
        Except.ok (⟨[], "", "DataSheet 0", 1, 0⟩, []) ∧
      wrapInt (0 + 0) = 0 ∧ (0 : Int) < (([⟨[], [], []⟩] : List RowNode).length : Int) ∧
      ∀ fuel : Nat,
        generateXlsxFileRows specConsts unitConfig ⟨fun _ => StatResult.notExist⟩ fuel
          [⟨[], [], []⟩] ⟨[], "", "DataSheet 0", 1, 0⟩ 0 = Except.error Fault.outOfFuel :=
  generateXlsxFileRows_zero_batch_never_ends specConsts unitConfig
    ⟨fun _ => StatResult.notExist⟩ [⟨[], [], []⟩] ⟨[], "", "DataSheet 0", 1, 0⟩ (by decide)

/-! ## Lemmas on `strings.Split`, `strings.Trim` and `strconv.Atoi` -/

theorem splitChars_ne_nil (sep : Char) (l : List Char) : splitChars sep l ≠ [] := by
  cases l with
  | nil => simp [splitChars]
  | cons c cs =>
    unfold splitChars
    split
    · simp
    · split <;> simp

theorem splitChars_append_sep (sep : Char) (a rest : List Char) (h : sep ∉ a) :
    splitChars sep (a ++ sep :: rest) = a :: splitChars sep rest := by
  induction a with
  | nil => simp [splitChars]
  | cons c cs ih =>
    have hc : c ≠ sep := fun e => h (by simp [e])
    have hcs : sep ∉ cs := fun e => h (by simp [e])
    have ih2 := ih hcs
    rw [List.cons_append, splitChars, if_neg hc, ih2]

theorem splitChars_of_not_mem (sep : Char) (a : List Char) (h : sep ∉ a) :
    splitChars sep a = [a] := by
  induction a with
  | nil => simp [splitChars]
  | cons c cs ih =>
    have hc : c ≠ sep := fun e => h (by simp [e])
    have hcs : sep ∉ cs := fun e => h (by simp [e])
    simp only [splitChars, hc, if_false, ih hcs]

theorem stringsSplit_ne_nil (s : String) (sep : Char) : stringsSplit s sep ≠ [] := by
  unfold stringsSplit
  simpa using splitChars_ne_nil sep s.data

theorem stringsSplit_of_not_mem (s : String) (sep : Char) (h : sep ∉ s.data) :
    stringsSplit s sep = [s] := by
  unfold stringsSplit
  rw [splitChars_of_not_mem sep s.data h]
  rfl

theorem stringsSplit_append_sep (a rest : String) (sep : Char) (h : sep ∉ a.data) :
    stringsSplit (a ++ String.mk [sep] ++ rest) sep = a :: stringsSplit rest sep := by
  unfold stringsSplit
  have hd : (a ++ String.mk [sep] ++ rest).data = a.data ++ sep :: rest.data := by
    simp [String.data_append]
  rw [hd, splitChars_append_sep sep a.data rest.data h]
  rfl

theorem stringsSplit_joinDecls (ds : List String) (hne : ds ≠ [])
    (h : ∀ d ∈ ds, ';' ∉ d.data) : stringsSplit (joinDecls ds) ';' = ds := by
  induction ds with
  | nil => exact absurd rfl hne
  | cons d rest ih =>
    cases rest with
    | nil =>
      simp only [joinDecls]
      exact stringsSplit_of_not_mem d ';' (h d (by simp))
    | cons e rest2 =>
      have hj : joinDecls (d :: e :: rest2) = d ++ String.mk [';'] ++ joinDecls (e :: rest2) :=
        rfl
      rw [hj, stringsSplit_append_sep d _ ';' (h d (by simp)),
        ih (by simp) (fun x hx => h x (by simp [hx]))]

/-- The empty declaration is skipped, so a style string built from the declarations
`ds` is processed as the fold of the loop body over `ds`. -/
theorem ExtractStyles_joinDecls (k : Consts) (conf : Config) (ds : List String)
    (h : ∀ d ∈ ds, ';' ∉ d.data) :
    ExtractStyles k conf (some (joinDecls ds)) = ds.foldl (applyEntry k conf) NewHtmlStyle := by
  unfold ExtractStyles
  cases ds with
  | nil => rfl
  | cons d rest =>
    show (stringsSplit (joinDecls (d :: rest)) ';').foldl (applyEntry k conf) NewHtmlStyle = _
    rw [stringsSplit_joinDecls (d :: rest) (by simp) h]

theorem stringsTrim_clean (n : String) (h : trimChars [' '] n.data = n.data) :
    stringsTrim n " " = n := by
  unfold stringsTrim
  have : (" " : String).data = [' '] := rfl
  rw [this, h]

/-- A declaration `name:value` whose name holds no colon reaches `switch attr` with the
trimmed name and the trimmed text up to the next colon. -/
theorem applyEntry_decl (k : Consts) (conf : Config) (st : HtmlStyle) (name v : String)
    (hname : ':' ∉ name.data) :
    applyEntry k conf st (name ++ ":" ++ v) =
      switchAttr k conf st (stringsTrim name " ")
        (stringsTrim ((stringsSplit v ':').headD "") " ") := by
  have hsplit : stringsSplit (name ++ ":" ++ v) ':' = name :: stringsSplit v ':' :=
    stringsSplit_append_sep name v ':' hname
  have hne : name ++ ":" ++ v ≠ "" := by
    intro e
    have := congrArg String.data e
    simp [String.data_append] at this
  unfold applyEntry
  rw [if_neg hne]
  simp only [hsplit]
  cases hv : stringsSplit v ':' with
  | nil => exact absurd hv (stringsSplit_ne_nil v ':')
  | cons x xs => simp [List.getD]

theorem applyEntry_clean_decl (k : Consts) (conf : Config) (st : HtmlStyle) (name v : String)
    (hname : CleanText name) (hv : ':' ∉ v.data) :
    applyEntry k conf st (name ++ ":" ++ v) =
      switchAttr k conf st name (stringsTrim v " ") := by
  rw [applyEntry_decl k conf st name v hname.2.1, stringsTrim_clean name hname.2.2,
    stringsSplit_of_not_mem v ':' hv]
  rfl

theorem dropWhile_eq_self_of_head {α : Type} (P : α → Bool) (l : List α)
    (h : ∀ c ∈ l, P c = false) : l.dropWhile P = l := by
  cases l with
  | nil => rfl
  | cons c cs => simp [List.dropWhile, h c (by simp)]

theorem dropWhile_append_of_all {α : Type} (P : α → Bool) (t l : List α)
    (h : ∀ c ∈ t, P c = true) : (t ++ l).dropWhile P = l.dropWhile P := by
  induction t with
  | nil => rfl
  | cons c cs ih =>
    have hc := h c (by simp)
    simp only [List.cons_append, List.dropWhile, hc]
    exact ih (fun x hx => h x (by simp [hx]))

/-- Trimming leaves the core `d` of `d ++ t` when no character of `d` and every
character of `t` is in the cutset. -/
theorem trimChars_core (cutset d t : List Char) (hd : ∀ c ∈ d, c ∉ cutset)
    (ht : ∀ c ∈ t, c ∈ cutset) : trimChars cutset (d ++ t) = d := by
  unfold trimChars
  have hP : ∀ c ∈ d, (fun c => decide (c ∈ cutset)) c = false := by
    intro c hc; simpa using hd c hc
  have hQ : ∀ c ∈ t, (fun c => decide (c ∈ cutset)) c = true := by
    intro c hc; simpa using ht c hc
  have h1 : (d ++ t).dropWhile (fun c => decide (c ∈ cutset)) = d ++ t ∨
      ((d ++ t).dropWhile (fun c => decide (c ∈ cutset)) = [] ∧ d = []) := by
    cases d with
    | nil =>
      right
      refine ⟨?_, rfl⟩
      have := dropWhile_append_of_all (fun c => decide (c ∈ cutset)) t [] hQ
      simpa using this
    | cons c cs =>
      left
      have hc : decide (c ∈ cutset) = false := hP c (by simp)
      rw [List.cons_append, List.dropWhile, hc]
  rcases h1 with h1 | ⟨h1, h2⟩
  · rw [h1, List.reverse_append,
      dropWhile_append_of_all _ t.reverse d.reverse (fun c hc => hQ c (by simpa using hc)),
      dropWhile_eq_self_of_head _ d.reverse (fun c hc => hP c (by simpa using hc)),
      List.reverse_reverse]
  · rw [h1, h2]; rfl

theorem digitValue_digitChar : ∀ m : Nat, m < 10 → digitValue (Nat.digitChar m) = some m := by
  decide

theorem not_mem_cutset_of_digit (c : Char) (h : (digitValue c).isSome = true) :
    c ∉ [' ', 'p', 'x'] := by
  intro hc
  simp only [List.mem_cons, List.mem_singleton, List.not_mem_nil, or_false] at hc
  rcases hc with rfl | rfl | rfl <;> revert h <;> decide

theorem decimalValue_ge (l : List Char) (acc : Nat) : acc ≤ decimalValue l acc := by
  unfold decimalValue
  induction l generalizing acc with
  | nil => exact Nat.le_refl _
  | cons c cs ih =>
    simp only [List.foldl_cons]
    exact Nat.le_trans (by omega) (ih _)

/-- On a string of digits whose value fits 64 bits the digit loop of `ParseUint`
returns that value. -/
theorem parseUintLoop_digits (l : List Char) (acc : Nat)
    (hd : ∀ c ∈ l, (digitValue c).isSome = true)
    (hv : decimalValue l acc ≤ 18446744073709551615) :
    parseUintLoop l acc = UintResult.ok (decimalValue l acc) := by
  induction l generalizing acc with
  | nil => rfl
  | cons c cs ih =>
    have hc := hd c (by simp)
    obtain ⟨d, hdv⟩ := Option.isSome_iff_exists.mp hc
    have hstep : decimalValue (c :: cs) acc = decimalValue cs (acc * 10 + d) := by
      simp [decimalValue, hdv]
    have hle := decimalValue_ge cs (acc * 10 + d)
    rw [hstep] at hv ⊢
    unfold parseUintLoop
    simp only [hdv]
    rw [if_neg (by omega)]
    exact ih _ (fun x hx => hd x (by simp [hx])) hv

theorem toDigitsCore_append (f n : Nat) (ds : List Char) :
    Nat.toDigitsCore 10 f n ds = Nat.toDigitsCore 10 f n [] ++ ds := by
  induction f generalizing n ds with
  | zero => simp [Nat.toDigitsCore]
  | succ f ih =>
    unfold Nat.toDigitsCore
    by_cases h : n / 10 = 0
    · simp [h]
    · simp only [h, if_false]
      rw [ih (n / 10) (Nat.digitChar (n % 10) :: ds), ih (n / 10) [Nat.digitChar (n % 10)]]
      simp

theorem toDigitsCore_spec (f n : Nat) (h : n < f) :
    (∀ c ∈ Nat.toDigitsCore 10 f n [], (digitValue c).isSome = true) ∧
      decimalValue (Nat.toDigitsCore 10 f n []) 0 = n ∧ Nat.toDigitsCore 10 f n [] ≠ [] := by
  induction f generalizing n with
  | zero => omega
  | succ f ih =>
    have hm := digitValue_digitChar (n % 10) (Nat.mod_lt _ (by decide))
    unfold Nat.toDigitsCore
    by_cases h0 : n / 10 = 0
    · simp only [h0, if_true]
      refine ⟨?_, ?_, by simp⟩
      · intro c hc
        simp only [List.mem_singleton] at hc
        rw [hc, hm]; rfl
      · simp only [decimalValue, List.foldl_cons, List.foldl_nil, hm, Option.getD_some]
        omega
    · simp only [h0, if_false]
      rw [toDigitsCore_append]
      obtain ⟨i1, i2, _⟩ := ih (n / 10) (by omega)
      refine ⟨?_, ?_, by simp⟩
      · intro c hc
        rw [List.mem_append] at hc
        rcases hc with hc | hc
        · exact i1 c hc
        · simp only [List.mem_singleton] at hc
          rw [hc, hm]; rfl
      · unfold decimalValue at i2 ⊢
        rw [List.foldl_append, i2]
        simp only [List.foldl_cons, List.foldl_nil, hm, Option.getD_some]
        omega

/-- `Atoi` reads back the decimal text of a number that fits a Go `int`, without error. -/
theorem Atoi_toString (w : Nat) (hw : w < 9223372036854775808) :
    Atoi (toString w) = ((w : Int), false) := by
  have hdata : (toString w).data = Nat.toDigitsCore 10 (w + 1) w [] := rfl
  obtain ⟨h1, h2, h3⟩ := toDigitsCore_spec (w + 1) w (by omega)
  unfold Atoi
  rw [hdata]
  cases hl : Nat.toDigitsCore 10 (w + 1) w [] with
  | nil => exact absurd hl h3
  | cons c cs =>
    rw [hl] at h1 h2
    have hc := h1 c (by simp)
    have hminus : c ≠ '-' := by rintro rfl; revert hc; decide
    have hplus : c ≠ '+' := by rintro rfl; revert hc; decide
    have hp := parseUintLoop_digits (c :: cs) 0 h1 (by omega)
    rw [h2] at hp
    simp only [hminus, hplus, or_self, if_false, decide_False, hp]
    have : ¬ (9223372036854775808 ≤ w) := by omega
    simp [this]

/-! ## The cases of `switch attr` under well-formed constants -/

theorem switchAttr_width (k : Consts) (hk : k.WellFormed) (conf : Config) (st : HtmlStyle)
    (value : String) :
    switchAttr k conf st k.WidthStyleAttr value =
      { st with Width := F64.mul (F64.ofInt (Atoi (stringsTrim value " px")).1) conf.PxToExcelWidthMultiplier } := by
  obtain ⟨hp, -, -, -⟩ := hk
  simp only [Consts.caseLabels, List.pairwise_cons, List.mem_cons, List.mem_singleton,
    forall_eq_or_imp, forall_eq, List.not_mem_nil] at hp
  simp [switchAttr, hp]

theorem switchAttr_minWidth (k : Consts) (hk : k.WellFormed) (conf : Config) (st : HtmlStyle)
    (value : String) :
    switchAttr k conf st k.MinWidthStyleAttr value =
      if st.Width.leZero = true then { st with Width := F64.mul (F64.ofInt (Atoi (stringsTrim value " px")).1) conf.PxToExcelWidthMultiplier } else st := by
  obtain ⟨hp, -, -, -⟩ := hk
  simp only [Consts.caseLabels, List.pairwise_cons, List.mem_cons, List.mem_singleton,
    forall_eq_or_imp, forall_eq, List.not_mem_nil] at hp
  simp [switchAttr, hp]

theorem switchAttr_maxWidth (k : Consts) (hk : k.WellFormed) (conf : Config) (st : HtmlStyle)
    (value : String) :
    switchAttr k conf st k.MaxWidthStyleAttr value =
      if st.Width.leZero = true then { st with Width := F64.mul (F64.ofInt (Atoi (stringsTrim value " px")).1) conf.PxToExcelWidthMultiplier } else st := by
  obtain ⟨hp, -, -, -⟩ := hk
  simp only [Consts.caseLabels, List.pairwise_cons, List.mem_cons, List.mem_singleton,
    forall_eq_or_imp, forall_eq, List.not_mem_nil] at hp
  simp [switchAttr, hp]

theorem switchAttr_height (k : Consts) (hk : k.WellFormed) (conf : Config) (st : HtmlStyle)
    (value : String) :
    switchAttr k conf st k.HeightStyleAttr value =
      { st with Height := F64.mul (F64.ofInt (Atoi (stringsTrim value " px")).1) conf.PxToExcelHeightMultiplier } := by
  obtain ⟨hp, -, -, -⟩ := hk
  simp only [Consts.caseLabels, List.pairwise_cons, List.mem_cons, List.mem_singleton,
    forall_eq_or_imp, forall_eq, List.not_mem_nil] at hp
  simp [switchAttr, hp]

theorem switchAttr_minHeight (k : Consts) (hk : k.WellFormed) (conf : Config) (st : HtmlStyle)
    (value : String) :
    switchAttr k conf st k.MinHeightStyleAttr value =
      if st.Height.leZero = true then { st with Height := F64.mul (F64.ofInt (Atoi (stringsTrim value " px")).1) conf.PxToExcelHeightMultiplier } else st := by
  obtain ⟨hp, -, -, -⟩ := hk
  simp only [Consts.caseLabels, List.pairwise_cons, List.mem_cons, List.mem_singleton,
    forall_eq_or_imp, forall_eq, List.not_mem_nil] at hp
  simp [switchAttr, hp]

theorem switchAttr_maxHeight (k : Consts) (hk : k.WellFormed) (conf : Config) (st : HtmlStyle)
    (value : String) :
    switchAttr k conf st k.MaxHeightStyleAttr value =
      if st.Height.leZero = true then { st with Height := F64.mul (F64.ofInt (Atoi (stringsTrim value " px")).1) conf.PxToExcelHeightMultiplier } else st := by
  obtain ⟨hp, -, -, -⟩ := hk
  simp only [Consts.caseLabels, List.pairwise_cons, List.mem_cons, List.mem_singleton,
    forall_eq_or_imp, forall_eq, List.not_mem_nil] at hp
  simp [switchAttr, hp]

theorem switchAttr_fontSize (k : Consts) (hk : k.WellFormed) (conf : Config) (st : HtmlStyle)
    (value : String) :
    switchAttr k conf st k.FontSizeStyleAttr value =
      { st with FontSize := (F64.ofInt (Atoi (stringsTrim value " px")).1) } := by
  obtain ⟨hp, -, -, -⟩ := hk
  simp only [Consts.caseLabels, List.pairwise_cons, List.mem_cons, List.mem_singleton,
    forall_eq_or_imp, forall_eq, List.not_mem_nil] at hp
  simp [switchAttr, hp]

theorem switchAttr_valueType (k : Consts) (hk : k.WellFormed) (conf : Config) (st : HtmlStyle)
    (value : String) :
    switchAttr k conf st k.ValueTypeAttrName value =
      if value = k.BooleanValueType then { st with CellValueType := value } else st := by
  obtain ⟨hp, hv, -, -⟩ := hk
  simp only [Consts.caseLabels, List.pairwise_cons, List.mem_cons, List.mem_singleton,
    forall_eq_or_imp, forall_eq, List.not_mem_nil] at hp hv
  simp only [switchAttr, hp, if_false, if_true]
  by_cases hb : value = k.BooleanValueType
  · subst hb
    simp [hv]
  · simp only [hb, if_false]
    split_ifs <;> rfl

theorem clean_label (k : Consts) (hk : k.WellFormed) (n : String) (h : n ∈ k.caseLabels) :
    CleanText n := hk.2.2.1 n h

theorem not_mem_of_digits (l : List Char) (hl : ∀ c ∈ l, (digitValue c).isSome = true)
    (x : Char) (hx : (digitValue x).isSome = false) : x ∉ l := by
  intro h
  have := hl x h
  rw [hx] at this
  exact Bool.noConfusion this

theorem toString_nat_digits (w : Nat) :
    ∀ c ∈ (toString w).data, (digitValue c).isSome = true := by
  have hdata : (toString w).data = Nat.toDigitsCore 10 (w + 1) w [] := rfl
  rw [hdata]
  exact (toDigitsCore_spec (w + 1) w (by omega)).1

theorem decl_no_semicolon (name v : String) (hn : ';' ∉ name.data) (hv : ';' ∉ v.data) :
    ';' ∉ (name ++ ":" ++ v).data := by
  have hd : (name ++ ":" ++ v).data = name.data ++ ':' :: v.data := by
    simp [String.data_append]
  rw [hd]
  intro h
  rw [List.mem_append] at h
  rcases h with h | h
  · exact hn h
  · rw [List.mem_cons] at h
    rcases h with h | h
    · revert h; decide
    · exact hv h

/-! ## `width` against `min-width` / `max-width` -/

theorem dropWhile_parts_of_trimChars (cutset m : List Char) (h : trimChars cutset m = m) :
    m.dropWhile (fun c => decide (c ∈ cutset)) = m ∧
      m.reverse.dropWhile (fun c => decide (c ∈ cutset)) = m.reverse := by
  unfold trimChars at h
  have s1 := List.dropWhile_suffix (l := m) (fun c => decide (c ∈ cutset))
  have s2 := List.dropWhile_suffix
    (l := (m.dropWhile (fun c => decide (c ∈ cutset))).reverse) (fun c => decide (c ∈ cutset))
  have l1 := s1.length_le
  have l2 := s2.length_le
  have l3 := congrArg List.length h
  simp only [List.length_reverse] at l2 l3
  have e1 : m.dropWhile (fun c => decide (c ∈ cutset)) = m := s1.eq_of_length (by omega)
  rw [e1] at h
  refine ⟨e1, ?_⟩
  have := congrArg List.reverse h
  rwa [List.reverse_reverse] at this

/-- Trimming removes a padding made of cutset characters around a text that trimming
leaves as it is. -/
theorem trimChars_padded (cutset l m r : List Char) (hl : ∀ c ∈ l, c ∈ cutset)
    (hr : ∀ c ∈ r, c ∈ cutset) (hm : trimChars cutset m = m) :
    trimChars cutset (l ++ (m ++ r)) = m := by
  obtain ⟨h1, h2⟩ := dropWhile_parts_of_trimChars cutset m hm
  have hL : ∀ c ∈ l, (fun c => decide (c ∈ cutset)) c = true := by
    intro c hc; simpa using hl c hc
  have hR : ∀ c ∈ r, (fun c => decide (c ∈ cutset)) c = true := by
    intro c hc; simpa using hr c hc
  unfold trimChars
  rw [dropWhile_append_of_all _ l (m ++ r) hL]
  cases m with
  | nil =>
    have := dropWhile_append_of_all (fun c => decide (c ∈ cutset)) r [] hR
    simp only [List.append_nil, List.dropWhile_nil] at this
    simp [this]
  | cons c cs =>
    have hc : decide (c ∈ cutset) = false := by
      cases hdec : decide (c ∈ cutset) with
      | false => rfl
      | true =>
        exfalso
        rw [List.dropWhile, hdec] at h1
        have hle := (List.dropWhile_suffix (l := cs) (fun c => decide (c ∈ cutset))).length_le
        have hlen := congrArg List.length h1
        simp only [List.length_cons] at hlen
        omega
    rw [List.cons_append, List.dropWhile, hc, ← List.cons_append, List.reverse_append,
      dropWhile_append_of_all _ r.reverse (c :: cs).reverse
        (fun x hx => hR x (by simpa using hx)),
      h2, List.reverse_reverse]

/-- Trimming leaves a text whose first and last characters are outside the cutset. -/
theorem trimChars_of_ends (cutset : List Char) (c z : Char) (mid : List Char)
    (hc : c ∉ cutset) (hz : z ∉ cutset) :
    trimChars cutset (c :: (mid ++ [z])) = c :: (mid ++ [z]) := by
  have hc2 : decide (c ∈ cutset) = false := by simpa using hc
  have hz2 : decide (z ∈ cutset) = false := by simpa using hz
  unfold trimChars
  rw [List.dropWhile, hc2]
  have hrev : (c :: (mid ++ [z])).reverse = z :: (mid.reverse ++ [c]) := by simp
  rw [hrev, List.dropWhile, hz2]
  simp

theorem mem_spaces (n : Nat) (c : Char) (h : c ∈ (spaces n).data) : c = ' ' :=
  List.eq_of_mem_replicate h

theorem stringsTrim_padded (a b : Nat) (n : String) (h : trimChars [' '] n.data = n.data) :
    stringsTrim (spaces a ++ n ++ spaces b) " " = n := by
  unfold stringsTrim
  have hd : (spaces a ++ n ++ spaces b).data = (spaces a).data ++ (n.data ++ (spaces b).data) := by
    simp [String.data_append]
  have hcut : (" " : String).data = [' '] := rfl
  rw [hd, hcut, trimChars_padded [' '] _ _ _
    (fun c hc => by simp [mem_spaces a c hc]) (fun c hc => by simp [mem_spaces b c hc]) h]

theorem padded_no_char (a b : Nat) (n : String) (x : Char) (hx : x ≠ ' ') (hn : x ∉ n.data) :
    x ∉ (spaces a ++ n ++ spaces b).data := by
  have hd : (spaces a ++ n ++ spaces b).data = (spaces a).data ++ (n.data ++ (spaces b).data) := by
    simp [String.data_append]
  rw [hd]
  intro h
  simp only [List.mem_append] at h
  rcases h with h | h | h
  · exact hx (mem_spaces a x h)
  · exact hn h
  · exact hx (mem_spaces b x h)

/-- A declaration whose clean property name is padded with spaces reaches
`switch attr` with that name. -/
theorem applyEntry_padded_decl (k : Consts) (conf : Config) (st : HtmlStyle) (name v : String)
    (a b : Nat) (hname : CleanText name) :
    applyEntry k conf st (spaces a ++ name ++ spaces b ++ ":" ++ v) =
      switchAttr k conf st name (stringsTrim ((stringsSplit v ':').headD "") " ") := by
  rw [applyEntry_decl k conf st _ v (padded_no_char a b name ':' (by decide) hname.2.1),
    stringsTrim_padded a b name hname.2.2]

/-- The value text of `pxDecl`: no separator inside, and the two trims of the source
followed by `Atoi` give `w`. -/
theorem pxValue_spec (w c d e : Nat) (hw : w < 9223372036854775808) :
    ';' ∉ (spaces c ++ toString w ++ spaces d ++ "px" ++ spaces e).data ∧
    ':' ∉ (spaces c ++ toString w ++ spaces d ++ "px" ++ spaces e).data ∧
    Atoi (stringsTrim (stringsTrim
      (spaces c ++ toString w ++ spaces d ++ "px" ++ spaces e) " ") " px") =
      ((w : Int), false) := by
  have hdig := toString_nat_digits w
  have hdata : (spaces c ++ toString w ++ spaces d ++ "px" ++ spaces e).data =
      (spaces c).data ++ (((toString w).data ++ ((spaces d).data ++ ['p', 'x'])) ++
        (spaces e).data) := by
    simp [String.data_append]
  have hno : ∀ x : Char, x ≠ ' ' → x ≠ 'p' → x ≠ 'x' → (digitValue x).isSome = false →
      x ∉ (spaces c ++ toString w ++ spaces d ++ "px" ++ spaces e).data := by
    intro x h1 h2 h3 h4 hx
    rw [hdata] at hx
    simp only [List.mem_append, List.mem_cons, List.mem_singleton, List.not_mem_nil,
      or_false] at hx
    rcases hx with hx | (hx | hx | hx | hx) | hx
    · exact h1 (mem_spaces c x hx)
    · exact not_mem_of_digits _ hdig x h4 hx
    · exact h1 (mem_spaces d x hx)
    · exact h2 hx
    · exact h3 hx
    · exact h1 (mem_spaces e x hx)
  refine ⟨hno ';' (by decide) (by decide) (by decide) (by decide),
    hno ':' (by decide) (by decide) (by decide) (by decide), ?_⟩
  have hne : (toString w).data ≠ [] := by
    have hd2 : (toString w).data = Nat.toDigitsCore 10 (w + 1) w [] := rfl
    rw [hd2]
    exact (toDigitsCore_spec (w + 1) w (by omega)).2.2
  have hcore : trimChars [' ']
      ((toString w).data ++ ((spaces d).data ++ ['p', 'x'])) =
      (toString w).data ++ ((spaces d).data ++ ['p', 'x']) := by
    cases hl : (toString w).data with
    | nil => exact absurd hl hne
    | cons x xs =>
      have hx : x ∉ [' '] := by
        intro h
        have := not_mem_cutset_of_digit x (hdig x (by simp [hl]))
        exact this (by simp at h; simp [h])
      have := trimChars_of_ends [' '] x 'x' (xs ++ ((spaces d).data ++ ['p'])) hx (by decide)
      simpa using this
  have e1 : stringsTrim (spaces c ++ toString w ++ spaces d ++ "px" ++ spaces e) " " =
      String.mk ((toString w).data ++ ((spaces d).data ++ ['p', 'x'])) := by
    unfold stringsTrim
    have hcut : (" " : String).data = [' '] := rfl
    rw [hdata, hcut, trimChars_padded [' '] _ _ _
      (fun x hx => by simp [mem_spaces c x hx]) (fun x hx => by simp [mem_spaces e x hx]) hcore]
  have e2 : stringsTrim (String.mk ((toString w).data ++ ((spaces d).data ++ ['p', 'x']))) " px" =
      toString w := by
    unfold stringsTrim
    have hcut : (" px" : String).data = [' ', 'p', 'x'] := rfl
    rw [hcut, trimChars_core [' ', 'p', 'x'] (toString w).data ((spaces d).data ++ ['p', 'x'])
      (fun x hx => not_mem_cutset_of_digit x (hdig x hx)) (by
        intro x hx
        simp only [List.mem_append, List.mem_cons, List.mem_singleton, List.not_mem_nil,
          or_false] at hx
        rcases hx with hx | hx | hx
        · simp [mem_spaces d x hx]
        · simp [hx]
        · simp [hx])]
  rw [e1, e2, Atoi_toString w hw]

theorem pxDecl_no_semicolon (name : String) (hname : CleanText name) (w a b c d e : Nat)
    (hw : w < 9223372036854775808) : ';' ∉ (pxDecl name w a b c d e).data := by
  unfold pxDecl
  exact decl_no_semicolon _ _ (padded_no_char a b name ';' (by decide) hname.1)
    (pxValue_spec w c d e hw).1

theorem applyEntry_widthDecl (k : Consts) (hk : k.WellFormed) (conf : Config) (st : HtmlStyle)
    (w a b c d e : Nat) (hw : w < 9223372036854775808) :
    applyEntry k conf st (pxDecl k.WidthStyleAttr w a b c d e) =
      { st with Width := F64.mul (F64.ofInt (w : Int)) conf.PxToExcelWidthMultiplier } := by
  obtain ⟨-, h2, h3⟩ := pxValue_spec w c d e hw
  unfold pxDecl
  rw [applyEntry_padded_decl k conf st _ _ a b
    (clean_label k hk _ (by simp [Consts.caseLabels])),
    stringsSplit_of_not_mem _ ':' h2, switchAttr_width k hk]
  simp only [List.headD_cons, h3]

theorem applyEntry_heightDecl (k : Consts) (hk : k.WellFormed) (conf : Config) (st : HtmlStyle)
    (w a b c d e : Nat) (hw : w < 9223372036854775808) :
    applyEntry k conf st (pxDecl k.HeightStyleAttr w a b c d e) =
      { st with Height := F64.mul (F64.ofInt (w : Int)) conf.PxToExcelHeightMultiplier } := by
  obtain ⟨-, h2, h3⟩ := pxValue_spec w c d e hw
  unfold pxDecl
  rw [applyEntry_padded_decl k conf st _ _ a b
    (clean_label k hk _ (by simp [Consts.caseLabels])),
    stringsSplit_of_not_mem _ ':' h2, switchAttr_height k hk]
  simp only [List.headD_cons, h3]

theorem applyEntry_minMaxWidth_skip (k : Consts) (hk : k.WellFormed) (conf : Config)
    (st : HtmlStyle) (hpos : st.Width.leZero = false) (p : FallbackDecl) :
    applyEntry k conf st (minMaxWidthDecl k p) = st := by
  unfold minMaxWidthDecl
  have hnot : ¬ st.Width.leZero = true := by rw [hpos]; decide
  cases hp : p.isMin with
  | true =>
    have hc := clean_label k hk k.MinWidthStyleAttr (by simp [Consts.caseLabels])
    simp only [if_true]
    rw [applyEntry_padded_decl k conf st _ _ _ _ hc, switchAttr_minWidth k hk, if_neg hnot]
  | false =>
    have hc := clean_label k hk k.MaxWidthStyleAttr (by simp [Consts.caseLabels])
    simp only [Bool.false_eq_true, if_false]
    rw [applyEntry_padded_decl k conf st _ _ _ _ hc, switchAttr_maxWidth k hk, if_neg hnot]

theorem applyEntry_minMaxHeight_skip (k : Consts) (hk : k.WellFormed) (conf : Config)
    (st : HtmlStyle) (hpos : st.Height.leZero = false) (p : FallbackDecl) :
    applyEntry k conf st (minMaxHeightDecl k p) = st := by
  unfold minMaxHeightDecl
  have hnot : ¬ st.Height.leZero = true := by rw [hpos]; decide
  cases hp : p.isMin with
  | true =>
    have hc := clean_label k hk k.MinHeightStyleAttr (by simp [Consts.caseLabels])
    simp only [if_true]
    rw [applyEntry_padded_decl k conf st _ _ _ _ hc, switchAttr_minHeight k hk, if_neg hnot]
  | false =>
    have hc := clean_label k hk k.MaxHeightStyleAttr (by simp [Consts.caseLabels])
    simp only [Bool.false_eq_true, if_false]
    rw [applyEntry_padded_decl k conf st _ _ _ _ hc, switchAttr_maxHeight k hk, if_neg hnot]

theorem foldl_minMaxWidth_skip (k : Consts) (hk : k.WellFormed) (conf : Config)
    (post : List FallbackDecl) (st : HtmlStyle) (hpos : st.Width.leZero = false) :
    (post.map (minMaxWidthDecl k)).foldl (applyEntry k conf) st = st := by
  induction post with
  | nil => rfl
  | cons p ps ih =>
    rw [List.map_cons, List.foldl_cons, applyEntry_minMaxWidth_skip k hk conf st hpos p]
    exact ih

theorem foldl_minMaxHeight_skip (k : Consts) (hk : k.WellFormed) (conf : Config)
    (post : List FallbackDecl) (st : HtmlStyle) (hpos : st.Height.leZero = false) :
    (post.map (minMaxHeightDecl k)).foldl (applyEntry k conf) st = st := by
  induction post with
  | nil => rfl
  | cons p ps ih =>
    rw [List.map_cons, List.foldl_cons, applyEntry_minMaxHeight_skip k hk conf st hpos p]
    exact ih

theorem minMaxWidthDecl_no_semicolon (k : Consts) (hk : k.WellFormed) (p : FallbackDecl)
    (hp : ';' ∉ p.value.data) : ';' ∉ (minMaxWidthDecl k p).data := by
  unfold minMaxWidthDecl
  refine decl_no_semicolon _ _ (padded_no_char _ _ _ ';' (by decide) ?_) hp
  split
  · exact (clean_label k hk k.MinWidthStyleAttr (by simp [Consts.caseLabels])).1
  · exact (clean_label k hk k.MaxWidthStyleAttr (by simp [Consts.caseLabels])).1

theorem minMaxHeightDecl_no_semicolon (k : Consts) (hk : k.WellFormed) (p : FallbackDecl)
    (hp : ';' ∉ p.value.data) : ';' ∉ (minMaxHeightDecl k p).data := by
  unfold minMaxHeightDecl
  refine decl_no_semicolon _ _ (padded_no_char _ _ _ ';' (by decide) ?_) hp
  split
  · exact (clean_label k hk k.MinHeightStyleAttr (by simp [Consts.caseLabels])).1
  · exact (clean_label k hk k.MaxHeightStyleAttr (by simp [Consts.caseLabels])).1

/-- C2 (as amended): for a style string made of exactly one declaration
`width: <w> px` with an int 0 < w <= MaxInt64, its parts separated by spaces only (no
tab, no newline), and any number of min-width / max-width declarations (with any value
text) before and after it, and for every positive float64 width multiplier,
ExtractStyles yields Width = float64(w) * multiplier, the float64 product that the code
computes; the same for height against min-height / max-height with the height
multiplier. -/
theorem ExtractStyles_primary_wins (k : Consts) (hk : k.WellFormed) (conf : Config)
    (hfw : conf.PxToExcelWidthMultiplier.isFloat64 = true)
    (hmw : conf.PxToExcelWidthMultiplier.isPositive = true)
    (hfh : conf.PxToExcelHeightMultiplier.isFloat64 = true)
    (hmh : conf.PxToExcelHeightMultiplier.isPositive = true)
    (w : Nat) (hw0 : 0 < w) (hw : w < 9223372036854775808) (a b c d e : Nat)
    (pre post : List FallbackDecl) (hpre : ∀ p ∈ pre, ';' ∉ p.value.data)
    (hpost : ∀ p ∈ post, ';' ∉ p.value.data) :
    (ExtractStyles k conf (some (joinDecls
        (pre.map (minMaxWidthDecl k) ++ [pxDecl k.WidthStyleAttr w a b c d e] ++
          post.map (minMaxWidthDecl k))))).Width =
      F64.mul (F64.ofInt (w : Int)) conf.PxToExcelWidthMultiplier ∧
    (ExtractStyles k conf (some (joinDecls
        (pre.map (minMaxHeightDecl k) ++ [pxDecl k.HeightStyleAttr w a b c d e] ++
          post.map (minMaxHeightDecl k))))).Height =
      F64.mul (F64.ofInt (w : Int)) conf.PxToExcelHeightMultiplier := by
  have hwi : (0 : Int) < (w : Int) := by exact_mod_cast hw0
  constructor
  · rw [ExtractStyles_joinDecls]
    · rw [List.foldl_append, List.foldl_append, List.foldl_cons, List.foldl_nil,
        applyEntry_widthDecl k hk conf _ w a b c d e hw, foldl_minMaxWidth_skip k hk conf post _
          (F64.mul_ofInt_pos _ hwi _ hfw hmw)]
    · intro x hx
      simp only [List.mem_append, List.mem_map, List.mem_singleton] at hx
      rcases hx with (⟨p, hp, rfl⟩ | rfl) | ⟨p, hp, rfl⟩
      · exact minMaxWidthDecl_no_semicolon k hk p (hpre p hp)
      · exact pxDecl_no_semicolon _
          (clean_label k hk k.WidthStyleAttr (by simp [Consts.caseLabels])) w a b c d e hw
      · exact minMaxWidthDecl_no_semicolon k hk p (hpost p hp)
  · rw [ExtractStyles_joinDecls]
    · rw [List.foldl_append, List.foldl_append, List.foldl_cons, List.foldl_nil,
        applyEntry_heightDecl k hk conf _ w a b c d e hw,
        foldl_minMaxHeight_skip k hk conf post _ (F64.mul_ofInt_pos _ hwi _ hfh hmh)]
    · intro x hx
      simp only [List.mem_append, List.mem_map, List.mem_singleton] at hx
      rcases hx with (⟨p, hp, rfl⟩ | rfl) | ⟨p, hp, rfl⟩
      · exact minMaxHeightDecl_no_semicolon k hk p (hpre p hp)
      · exact pxDecl_no_semicolon _
          (clean_label k hk k.HeightStyleAttr (by simp [Consts.caseLabels])) w a b c d e hw
      · exact minMaxHeightDecl_no_semicolon k hk p (hpost p hp)

/-- Witness of C2 at the two strings of the spec, "min-width:100px;width:50px" and
"width:50px;min-width:100px", and at a spelling with spaces. -/
theorem ExtractStyles_primary_wins_witness :
    ((ExtractStyles specConsts unitConfig (some "min-width:100px;width:50px")).Width =
        F64.mul (F64.ofInt ((50 : Nat) : Int)) unitConfig.PxToExcelWidthMultiplier ∧
      (ExtractStyles specConsts unitConfig (some "min-height:100px;height:50px")).Height =
        F64.mul (F64.ofInt ((50 : Nat) : Int)) unitConfig.PxToExcelHeightMultiplier) ∧
    ((ExtractStyles specConsts unitConfig (some "width:50px;min-width:100px")).Width =
        F64.mul (F64.ofInt ((50 : Nat) : Int)) unitConfig.PxToExcelWidthMultiplier ∧
      (ExtractStyles specConsts unitConfig (some "height:50px;min-height:100px")).Height =
        F64.mul (F64.ofInt ((50 : Nat) : Int)) unitConfig.PxToExcelHeightMultiplier) ∧
    ((ExtractStyles specConsts unitConfig
          (some "max-width: 7px; width : 50 px ;min-width:100px")).Width =
        F64.mul (F64.ofInt ((50 : Nat) : Int)) unitConfig.PxToExcelWidthMultiplier ∧
      (ExtractStyles specConsts unitConfig
          (some "max-height: 7px; height : 50 px ;min-height:100px")).Height =
        F64.mul (F64.ofInt ((50 : Nat) : Int)) unitConfig.PxToExcelHeightMultiplier) :=
  ⟨ExtractStyles_primary_wins specConsts (by decide) unitConfig (by decide) (by decide)
      (by decide) (by decide) 50 (by decide) (by decide) 0 0 0 0 0
      [⟨true, 0, 0, "100px"⟩] [] (by decide) (by decide),
    ExtractStyles_primary_wins specConsts (by decide) unitConfig (by decide) (by decide)
      (by decide) (by decide) 50 (by decide) (by decide) 0 0 0 0 0
      [] [⟨true, 0, 0, "100px"⟩] (by decide) (by decide),
    ExtractStyles_primary_wins specConsts (by decide) unitConfig (by decide) (by decide)
      (by decide) (by decide) 50 (by decide) (by decide) 1 1 1 1 1
      [⟨false, 0, 0, " 7px"⟩] [⟨true, 0, 0, "100px"⟩] (by decide) (by decide)⟩

/-- C2 (counterexample): in "min-width:100px;" followed by a newline and " width:50px"
the width declaration is not recognised (only spaces are trimmed from the property
name) and the width is float64(100) * multiplier, not float64(50) * multiplier; and
for w = 2^64 the declaration "width:18446744073709551616px" gives
float64(MaxInt64) * multiplier, which is 2^63, not 2^64. -/
theorem ExtractStyles_primary_counterexample :
    (ExtractStyles specConsts unitConfig (some "min-width:100px;\n width:50px")).Width =
        F64.mul (F64.ofInt 100) unitConfig.PxToExcelWidthMultiplier ∧
      (ExtractStyles specConsts unitConfig (some "min-width:100px;\n width:50px")).Width ≠
        F64.mul (F64.ofInt 50) unitConfig.PxToExcelWidthMultiplier ∧
      (ExtractStyles specConsts unitConfig (some "width:18446744073709551616px")).Width =
        F64.fin false 4503599627370496 11 ∧
      (ExtractStyles specConsts unitConfig (some "width:18446744073709551616px")).Width ≠
        F64.mul (F64.ofInt 18446744073709551616) unitConfig.PxToExcelWidthMultiplier := by
  decide

/-- The rounding of the conversion and of the product: float64(2^53 + 1) is 2^53,
float64(MaxInt64) is 2^63, and 3 times the float64 nearest to 0.1 is
0.30000000000000004 (mantissa 5404319552844596, exponent -54), not the float64
nearest to 0.3 (mantissa 5404319552844595). -/
theorem F64.rounding_examples :
    F64.ofInt 9007199254740993 = F64.fin false 4503599627370496 1 ∧
      F64.ofInt 9223372036854775807 = F64.fin false 4503599627370496 11 ∧
      F64.mul (F64.ofInt 3) (F64.fin false 7205759403792794 (-56)) =
        F64.fin false 5404319552844596 (-54) := by
  decide

/-! ## Defaults, the value-type marker, parse failures -/

/-- C3 (as amended): for the nil node and for the empty style string ExtractStyles
returns the same record, the one of NewHtmlStyle, with colspan = 0, width = 0,
height = 0 and bold = false. -/
theorem ExtractStyles_absent_or_empty (k : Consts) (conf : Config) :
    ExtractStyles k conf (some "") = ExtractStyles k conf none ∧
      (ExtractStyles k conf none).Colspan = 0 ∧
      (ExtractStyles k conf none).Width = F64.zero ∧
      (ExtractStyles k conf none).Height = F64.zero ∧
      (ExtractStyles k conf none).IsBold = false ∧
      (ExtractStyles k conf (some "")).Colspan = 0 ∧
      (ExtractStyles k conf (some "")).Width = F64.zero ∧
      (ExtractStyles k conf (some "")).Height = F64.zero ∧
      (ExtractStyles k conf (some "")).IsBold = false := by
  have h : ExtractStyles k conf (some "") = ExtractStyles k conf none := rfl
  refine ⟨h, rfl, rfl, rfl, rfl, ?_, ?_, ?_, ?_⟩ <;> rw [h] <;> rfl

/-- C3 (counterexample): the record returned for the nil node and for the empty style
string has colspan 0, not 1, and its value type is the empty string, not "string". -/
theorem ExtractStyles_defaults_counterexample :
    (ExtractStyles specConsts unitConfig none).Colspan ≠ 1 ∧
      (ExtractStyles specConsts unitConfig (some "")).Colspan ≠ 1 ∧
      (ExtractStyles specConsts unitConfig none).CellValueType ≠ specConsts.StringValueType ∧
      (ExtractStyles specConsts unitConfig (some "")).CellValueType ≠
        specConsts.StringValueType := by
  decide

/-- C4 (the code at the failing inputs): for a style string whose only declaration is
the value-type marker with a clean value v, ExtractStyles sets CellValueType to v when
v is the boolean value type and leaves it at the empty default for every other v; in
particular the float, string and date value types are not stored. -/
theorem ExtractStyles_valueType_only_boolean (k : Consts) (hk : k.WellFormed) (conf : Config) :
    (∀ v : String, CleanText v →
      (ExtractStyles k conf (some (k.ValueTypeAttrName ++ ":" ++ v))).CellValueType =
        if v = k.BooleanValueType then v else "") ∧
    (ExtractStyles k conf (some (k.ValueTypeAttrName ++ ":" ++ k.FloatValueType))).CellValueType
      = "" ∧
    (ExtractStyles k conf (some (k.ValueTypeAttrName ++ ":" ++ k.StringValueType))).CellValueType
      = "" ∧
    (ExtractStyles k conf (some (k.ValueTypeAttrName ++ ":" ++ k.DateValueType))).CellValueType
      = "" := by
  have hmark := clean_label k hk k.ValueTypeAttrName (by simp [Consts.caseLabels])
  have main : ∀ v : String, CleanText v →
      (ExtractStyles k conf (some (k.ValueTypeAttrName ++ ":" ++ v))).CellValueType =
        if v = k.BooleanValueType then v else "" := by
    intro v hv
    have hj : k.ValueTypeAttrName ++ ":" ++ v = joinDecls [k.ValueTypeAttrName ++ ":" ++ v] := rfl
    rw [hj, ExtractStyles_joinDecls k conf _ (by
      intro d hd
      simp only [List.mem_singleton] at hd
      rw [hd]
      exact decl_no_semicolon _ _ hmark.1 hv.1)]
    simp only [List.foldl_cons, List.foldl_nil]
    rw [applyEntry_clean_decl k conf _ _ _ hmark hv.2.1, stringsTrim_clean v hv.2.2,
      switchAttr_valueType k hk]
    split_ifs <;> rfl
  have hvt := hk.2.1
  simp only [List.pairwise_cons, List.mem_cons, List.mem_singleton, forall_eq_or_imp,
    forall_eq, List.not_mem_nil] at hvt
  have hcl := hk.2.2.2
  refine ⟨main, ?_, ?_, ?_⟩
  · rw [main _ (hcl _ (by simp)), if_neg (fun e => hvt.1.2.2.1 e.symm)]
  · rw [main _ (hcl _ (by simp)), if_neg (fun e => hvt.2.1.2.1 e.symm)]
  · rw [main _ (hcl _ (by simp)), if_neg (fun e => hvt.2.2.1.1 e.symm)]

/-- Witness of C4 with the constants named by the spec. -/
theorem ExtractStyles_valueType_only_boolean_witness :
    (∀ v : String, CleanText v →
      (ExtractStyles specConsts unitConfig
        (some (specConsts.ValueTypeAttrName ++ ":" ++ v))).CellValueType =
        if v = specConsts.BooleanValueType then v else "") ∧
    (ExtractStyles specConsts unitConfig
      (some (specConsts.ValueTypeAttrName ++ ":" ++ specConsts.FloatValueType))).CellValueType
      = "" ∧
    (ExtractStyles specConsts unitConfig
      (some (specConsts.ValueTypeAttrName ++ ":" ++ specConsts.StringValueType))).CellValueType
      = "" ∧
    (ExtractStyles specConsts unitConfig
      (some (specConsts.ValueTypeAttrName ++ ":" ++ specConsts.DateValueType))).CellValueType
      = "" :=
  ExtractStyles_valueType_only_boolean specConsts (by decide) unitConfig

/-- The digit loop of `ParseUint` on any text: a range error as soon as the digits read
exceed 64 bits, else a syntax error at the first character that is not a digit, else
the value. -/
theorem parseUintLoop_spec (b : List Char) (acc : Nat) (hacc : acc ≤ 18446744073709551615) :
    parseUintLoop b acc =
      if 18446744073709551615 < decimalValue (b.takeWhile isDigitChar) acc then
        UintResult.outOfRange
      else if b.dropWhile isDigitChar ≠ [] then UintResult.invalidText
      else UintResult.ok (decimalValue b acc) := by
  induction b generalizing acc with
  | nil =>
    have h : ¬ 18446744073709551615 < acc := by omega
    simp [parseUintLoop, decimalValue, h]
  | cons c cs ih =>
    cases hd : digitValue c with
    | none =>
      have hc : isDigitChar c = false := by simp [isDigitChar, hd]
      have h : ¬ 18446744073709551615 < acc := by omega
      simp [parseUintLoop, hd, List.takeWhile, List.dropWhile, hc, decimalValue, h]
    | some d =>
      have hc : isDigitChar c = true := by simp [isDigitChar, hd]
      have hstep : ∀ l : List Char, decimalValue (c :: l) acc = decimalValue l (acc * 10 + d) := by
        intro l
        simp [decimalValue, hd]
      rw [parseUintLoop]
      simp only [hd, List.takeWhile, List.dropWhile, hc, hstep]
      by_cases h1 : 18446744073709551615 < acc * 10 + d
      · have h2 := decimalValue_ge (cs.takeWhile isDigitChar) (acc * 10 + d)
        rw [if_pos h1, if_pos (by omega)]
      · rw [if_neg h1, ih (acc * 10 + d) (by omega)]

/-- `Atoi` in terms of the sign and the text after it. -/
theorem Atoi_eq_body (t : String) :
    Atoi t =
      match atoiBody t with
      | [] => (0, true)
      | b :: bs =>
        match parseUintLoop (b :: bs) 0 with
        | UintResult.invalidText => (0, true)
        | UintResult.outOfRange =>
          if atoiNeg t then (-9223372036854775808, true) else (9223372036854775807, true)
        | UintResult.ok un =>
          if atoiNeg t then
            if 9223372036854775808 < un then (-9223372036854775808, true)
            else (-(un : Int), false)
          else
            if 9223372036854775808 ≤ un then (9223372036854775807, true)
            else ((un : Int), false) := by
  unfold Atoi atoiBody atoiNeg
  generalize t.data = l
  cases l with
  | nil => rfl
  | cons c cs => rfl

/-- The int that `Atoi` returns together with an error: 0 for a text that is not a
number, else the end of the `int` range on the side of the sign. -/
theorem Atoi_failure (t : String) (h : (Atoi t).2 = true) :
    (Atoi t).1 = atoiFailureValue t := by
  unfold atoiFailureValue
  rw [Atoi_eq_body] at h ⊢
  by_cases hN : NotANumber t
  · rw [if_pos hN]
    unfold NotANumber at hN
    cases hb : atoiBody t with
    | nil => rfl
    | cons b bs =>
      rw [hb] at hN
      rcases hN with hN | ⟨hN1, hN2⟩
      · exact absurd hN (by simp)
      · simp only
        rw [parseUintLoop_spec (b :: bs) 0 (by decide), if_neg (by omega), if_pos hN1]
  · rw [if_neg hN]
    unfold NotANumber at hN
    cases hb : atoiBody t with
    | nil => exact absurd (Or.inl hb) hN
    | cons b bs =>
      rw [hb] at hN h
      simp only at h ⊢
      rw [parseUintLoop_spec (b :: bs) 0 (by decide)] at h ⊢
      by_cases h1 : 18446744073709551615 <
          decimalValue ((b :: bs).takeWhile isDigitChar) 0
      · rw [if_pos h1]
        cases atoiNeg t <;> rfl
      · have h2 : ¬ (b :: bs).dropWhile isDigitChar ≠ [] := by
          intro h2
          exact hN (Or.inr ⟨h2, by omega⟩)
        rw [if_neg h1, if_neg h2] at h ⊢
        cases hn : atoiNeg t
        · simp only [hn, Bool.false_eq_true, if_false] at h ⊢
          split_ifs at h ⊢ with h3
          rfl
        · simp only [hn, if_true] at h ⊢
          split_ifs at h ⊢ with h3
          rfl

/-- C5 (as amended): a width, height or font-size declaration whose value does not
parse as an int does not abort ExtractStyles, and the field does not keep its prior
value: it is overwritten with float64(n) * multiplier for width and height and with
float64(n) for font-size, where n is the int that Atoi returns together with the
error: 0 when the value is not a decimal number (nothing after the optional sign, or a
character that is not a digit met while the digits read fit 64 bits); otherwise (a
decimal number out of the int range, or digits that exceed 64 bits) MaxInt64 without a
minus sign and MinInt64 with one. The conversion and the product are the float64 ones,
so float64(MaxInt64) is 2^63. -/
theorem ExtractStyles_parse_failure_overwrites (k : Consts) (hk : k.WellFormed) (conf : Config)
    (pre : List String) (hpre : ∀ d ∈ pre, ';' ∉ d.data) (v : String)
    (hv1 : ';' ∉ v.data) (hv2 : ':' ∉ v.data)
    (hfail : (Atoi (stringsTrim (stringsTrim v " ") " px")).2 = true) :
    (ExtractStyles k conf (some (joinDecls (pre ++ [k.WidthStyleAttr ++ ":" ++ v])))).Width =
      F64.mul (F64.ofInt (atoiFailureValue (stringsTrim (stringsTrim v " ") " px")))
        conf.PxToExcelWidthMultiplier ∧
    (ExtractStyles k conf (some (joinDecls (pre ++ [k.HeightStyleAttr ++ ":" ++ v])))).Height =
      F64.mul (F64.ofInt (atoiFailureValue (stringsTrim (stringsTrim v " ") " px")))
        conf.PxToExcelHeightMultiplier ∧
    (ExtractStyles k conf (some (joinDecls (pre ++ [k.FontSizeStyleAttr ++ ":" ++ v])))).FontSize =
      F64.ofInt (atoiFailureValue (stringsTrim (stringsTrim v " ") " px")) := by
  have hsemi : ∀ name : String, name ∈ k.caseLabels →
      ∀ d ∈ pre ++ [name ++ ":" ++ v], ';' ∉ d.data := by
    intro name hn d hd
    rw [List.mem_append, List.mem_singleton] at hd
    rcases hd with hd | rfl
    · exact hpre d hd
    · exact decl_no_semicolon _ _ (clean_label k hk name hn).1 hv1
  have hval := Atoi_failure _ hfail
  refine ⟨?_, ?_, ?_⟩
  · have hn : k.WidthStyleAttr ∈ k.caseLabels := by simp [Consts.caseLabels]
    rw [ExtractStyles_joinDecls k conf _ (hsemi _ hn), List.foldl_append, List.foldl_cons,
      List.foldl_nil, applyEntry_clean_decl k conf _ _ _ (clean_label k hk _ hn) hv2,
      switchAttr_width k hk, hval]
  · have hn : k.HeightStyleAttr ∈ k.caseLabels := by simp [Consts.caseLabels]
    rw [ExtractStyles_joinDecls k conf _ (hsemi _ hn), List.foldl_append, List.foldl_cons,
      List.foldl_nil, applyEntry_clean_decl k conf _ _ _ (clean_label k hk _ hn) hv2,
      switchAttr_height k hk, hval]
  · have hn : k.FontSizeStyleAttr ∈ k.caseLabels := by simp [Consts.caseLabels]
    rw [ExtractStyles_joinDecls k conf _ (hsemi _ hn), List.foldl_append, List.foldl_cons,
      List.foldl_nil, applyEntry_clean_decl k conf _ _ _ (clean_label k hk _ hn) hv2,
      switchAttr_fontSize k hk, hval]

/-- Witness of C5 after the declarations "width:50px", "height:50px" and
"font-size:50px": the value "abc" gives float64(0), times the multiplier for width and
height, and the value "99999999999999999999" gives float64(MaxInt64). -/
theorem ExtractStyles_parse_failure_overwrites_witness :
    ((ExtractStyles specConsts unitConfig
        (some "width:50px;height:50px;font-size:50px;width:abc")).Width =
        F64.mul (F64.ofInt 0) unitConfig.PxToExcelWidthMultiplier ∧
      (ExtractStyles specConsts unitConfig
        (some "width:50px;height:50px;font-size:50px;height:abc")).Height =
        F64.mul (F64.ofInt 0) unitConfig.PxToExcelHeightMultiplier ∧
      (ExtractStyles specConsts unitConfig
        (some "width:50px;height:50px;font-size:50px;font-size:abc")).FontSize =
        F64.ofInt 0) ∧
    ((ExtractStyles specConsts unitConfig
        (some "width:50px;height:50px;font-size:50px;width:99999999999999999999")).Width =
        F64.mul (F64.ofInt 9223372036854775807) unitConfig.PxToExcelWidthMultiplier ∧
      (ExtractStyles specConsts unitConfig
        (some "width:50px;height:50px;font-size:50px;height:99999999999999999999")).Height =
        F64.mul (F64.ofInt 9223372036854775807) unitConfig.PxToExcelHeightMultiplier ∧
      (ExtractStyles specConsts unitConfig
        (some "width:50px;height:50px;font-size:50px;font-size:99999999999999999999")).FontSize =
        F64.ofInt 9223372036854775807) :=
  ⟨ExtractStyles_parse_failure_overwrites specConsts (by decide) unitConfig
      ["width:50px", "height:50px", "font-size:50px"] (by decide) "abc" (by decide)
      (by decide) (by decide),
    ExtractStyles_parse_failure_overwrites specConsts (by decide) unitConfig
      ["width:50px", "height:50px", "font-size:50px"] (by decide) "99999999999999999999"
      (by decide) (by decide) (by decide)⟩

/-- C5 (counterexample): after "width:50px" the width is float64(50) * multiplier; the
value "abc" of a second width declaration does not parse; after "width:50px;width:abc"
the width is the float64 zero, not float64(50) * multiplier. The same for height and
for font-size. -/
theorem ExtractStyles_parse_failure_counterexample :
    (Atoi (stringsTrim (stringsTrim "abc" " ") " px")).2 = true ∧
      ((ExtractStyles specConsts unitConfig (some "width:50px")).Width =
          F64.mul (F64.ofInt 50) unitConfig.PxToExcelWidthMultiplier ∧
        (ExtractStyles specConsts unitConfig (some "width:50px;width:abc")).Width = F64.zero ∧
        (ExtractStyles specConsts unitConfig (some "width:50px;width:abc")).Width ≠
          F64.mul (F64.ofInt 50) unitConfig.PxToExcelWidthMultiplier) ∧
      ((ExtractStyles specConsts unitConfig (some "height:50px")).Height =
          F64.mul (F64.ofInt 50) unitConfig.PxToExcelHeightMultiplier ∧
        (ExtractStyles specConsts unitConfig (some "height:50px;height:abc")).Height =
          F64.zero ∧
        (ExtractStyles specConsts unitConfig (some "height:50px;height:abc")).Height ≠
          F64.mul (F64.ofInt 50) unitConfig.PxToExcelHeightMultiplier) ∧
      ((ExtractStyles specConsts unitConfig (some "font-size:50px")).FontSize = F64.ofInt 50 ∧
        (ExtractStyles specConsts unitConfig (some "font-size:50px;font-size:abc")).FontSize =
          F64.zero ∧
        (ExtractStyles specConsts unitConfig (some "font-size:50px;font-size:abc")).FontSize ≠
          F64.ofInt 50) := by
  decide

/-! ## Order of the declarations -/

theorem switchAttr_eq_run (k : Consts) (conf : Config) (st : HtmlStyle) (attr value : String) :
    switchAttr k conf st attr value = Action.run st (switchAction k conf attr value) := by
  unfold switchAttr switchAction
  by_cases h0 : attr = k.ColspanAttrName
  · rw [if_pos h0, if_pos h0]
    rfl
  rw [if_neg h0, if_neg h0]
  by_cases h1 : attr = k.TextAlignStyleAttr
  · rw [if_pos h1, if_pos h1]
    rfl
  rw [if_neg h1, if_neg h1]
  by_cases h2 : attr = k.WordWrapStyleAttr
  · rw [if_pos h2, if_pos h2]
    rfl
  rw [if_neg h2, if_neg h2]
  by_cases h3 : attr = k.WidthStyleAttr
  · rw [if_pos h3, if_pos h3]
    rfl
  rw [if_neg h3, if_neg h3]
  by_cases h4 : attr = k.MinWidthStyleAttr
  · rw [if_pos h4, if_pos h4]
    rfl
  rw [if_neg h4, if_neg h4]
  by_cases h5 : attr = k.MaxWidthStyleAttr
  · rw [if_pos h5, if_pos h5]
    rfl
  rw [if_neg h5, if_neg h5]
  by_cases h6 : attr = k.HeightStyleAttr
  · rw [if_pos h6, if_pos h6]
    rfl
  rw [if_neg h6, if_neg h6]
  by_cases h7 : attr = k.MinHeightStyleAttr
  · rw [if_pos h7, if_pos h7]
    rfl
  rw [if_neg h7, if_neg h7]
  by_cases h8 : attr = k.MaxHeightStyleAttr
  · rw [if_pos h8, if_pos h8]
    rfl
  rw [if_neg h8, if_neg h8]
  by_cases h9 : attr = k.BorderStyleAttr
  · rw [if_pos h9, if_pos h9]
    rfl
  rw [if_neg h9, if_neg h9]
  by_cases h10 : attr = k.BorderInheritanceStyleAttr
  · rw [if_pos h10, if_pos h10]
    rfl
  rw [if_neg h10, if_neg h10]
  by_cases h11 : attr = k.FontSizeStyleAttr
  · rw [if_pos h11, if_pos h11]
    rfl
  rw [if_neg h11, if_neg h11]
  by_cases h12 : attr = k.FontWeightStyleAttr
  · rw [if_pos h12, if_pos h12]
    rfl
  rw [if_neg h12, if_neg h12]
  by_cases h13 : attr = k.TextVerticalAlignStyleAttr
  · rw [if_pos h13, if_pos h13]
    rfl
  rw [if_neg h13, if_neg h13]
  by_cases hv : attr = k.ValueTypeAttrName
  · rw [if_pos hv, if_pos hv]
    split_ifs <;> rfl
  rw [if_neg hv, if_neg hv]
  rfl

theorem applyEntry_eq_run (k : Consts) (conf : Config) (st : HtmlStyle) (e : String) :
    applyEntry k conf st e = Action.run st (entryAction k conf e) := by
  unfold applyEntry entryAction
  by_cases h1 : e = ""
  · simp only [h1, if_true]
    rfl
  · simp only [h1, if_false]
    by_cases h2 : (stringsSplit e ':').length < 2
    · simp only [h2, if_true]
      rfl
    · simp only [h2, if_false]
      exact switchAttr_eq_run k conf st _ _

theorem switchAction_target (k : Consts) (conf : Config) (attr value : String) :
    (switchAction k conf attr value).target = none ∨
      (switchAction k conf attr value).target = attrTarget k attr := by
  unfold switchAction attrTarget
  by_cases h0 : attr = k.ColspanAttrName
  · rw [if_pos h0, if_pos h0]
    exact Or.inr rfl
  rw [if_neg h0, if_neg h0]
  by_cases h1 : attr = k.TextAlignStyleAttr
  · rw [if_pos h1, if_pos h1]
    exact Or.inr rfl
  rw [if_neg h1, if_neg h1]
  by_cases h2 : attr = k.WordWrapStyleAttr
  · rw [if_pos h2, if_pos h2]
    exact Or.inr rfl
  rw [if_neg h2, if_neg h2]
  by_cases h3 : attr = k.WidthStyleAttr
  · rw [if_pos h3, if_pos h3]
    exact Or.inr rfl
  rw [if_neg h3, if_neg h3]
  by_cases h4 : attr = k.MinWidthStyleAttr
  · rw [if_pos h4, if_pos h4]
    exact Or.inr rfl
  rw [if_neg h4, if_neg h4]
  by_cases h5 : attr = k.MaxWidthStyleAttr
  · rw [if_pos h5, if_pos h5]
    exact Or.inr rfl
  rw [if_neg h5, if_neg h5]
  by_cases h6 : attr = k.HeightStyleAttr
  · rw [if_pos h6, if_pos h6]
    exact Or.inr rfl
  rw [if_neg h6, if_neg h6]
  by_cases h7 : attr = k.MinHeightStyleAttr
  · rw [if_pos h7, if_pos h7]
    exact Or.inr rfl
  rw [if_neg h7, if_neg h7]
  by_cases h8 : attr = k.MaxHeightStyleAttr
  · rw [if_pos h8, if_pos h8]
    exact Or.inr rfl
  rw [if_neg h8, if_neg h8]
  by_cases h9 : attr = k.BorderStyleAttr
  · rw [if_pos h9, if_pos h9]
    exact Or.inr rfl
  rw [if_neg h9, if_neg h9]
  by_cases h10 : attr = k.BorderInheritanceStyleAttr
  · rw [if_pos h10, if_pos h10]
    exact Or.inr rfl
  rw [if_neg h10, if_neg h10]
  by_cases h11 : attr = k.FontSizeStyleAttr
  · rw [if_pos h11, if_pos h11]
    exact Or.inr rfl
  rw [if_neg h11, if_neg h11]
  by_cases h12 : attr = k.FontWeightStyleAttr
  · rw [if_pos h12, if_pos h12]
    exact Or.inr rfl
  rw [if_neg h12, if_neg h12]
  by_cases h13 : attr = k.TextVerticalAlignStyleAttr
  · rw [if_pos h13, if_pos h13]
    exact Or.inr rfl
  rw [if_neg h13, if_neg h13]
  by_cases hv : attr = k.ValueTypeAttrName
  · rw [if_pos hv, if_pos hv]
    split_ifs <;> first | exact Or.inr rfl | exact Or.inl rfl
  rw [if_neg hv, if_neg hv]
  exact Or.inl rfl

theorem entryAction_target (k : Consts) (conf : Config) (e : String) :
    (entryAction k conf e).target = none ∨
      (entryAction k conf e).target = entryTarget k e := by
  unfold entryAction entryTarget
  split_ifs
  · exact Or.inl rfl
  · exact Or.inl rfl
  · exact switchAction_target k conf _ _

/-- Two actions on different fields commute. -/
theorem Action.run_comm (a b : Action) (st : HtmlStyle)
    (h : a.target = none ∨ b.target = none ∨ a.target ≠ b.target) :
    Action.run (Action.run st a) b = Action.run (Action.run st b) a := by
  cases a <;> cases b <;> simp [Action.target] at h <;> simp only [Action.run] <;>
    (try split_ifs) <;> rfl

/-- Two declarations that write different fields commute. -/
theorem applyEntry_comm (k : Consts) (conf : Config) (st : HtmlStyle) (x y : String)
    (h : ∀ f ∈ entryTarget k x, ∀ f2 ∈ entryTarget k y, f ≠ f2) :
    applyEntry k conf (applyEntry k conf st x) y =
      applyEntry k conf (applyEntry k conf st y) x := by
  simp only [applyEntry_eq_run]
  apply Action.run_comm
  rcases entryAction_target k conf x with hx | hx
  · exact Or.inl hx
  · rcases entryAction_target k conf y with hy | hy
    · exact Or.inr (Or.inl hy)
    · rw [hx, hy]
      cases hx2 : entryTarget k x with
      | none => exact Or.inl rfl
      | some f =>
        cases hy2 : entryTarget k y with
        | none => exact Or.inr (Or.inl rfl)
        | some f2 =>
          right; right
          intro e
          exact h f (by simp [hx2]) f2 (by simp [hy2]) (Option.some.inj e)

/-- C6 (as amended): for declarations of which no two write the same field of the
record (width, min-width and max-width count as one field, height, min-height and
max-height as one, the two border properties as one), every permutation of the
declarations makes ExtractStyles return the same record. -/
theorem ExtractStyles_order_independent (k : Consts) (conf : Config) (ds ds2 : List String)
    (hperm : ds.Perm ds2) (hsemi : ∀ d ∈ ds, ';' ∉ d.data)
    (htargets : (ds.filterMap (entryTarget k)).Nodup) :
    ExtractStyles k conf (some (joinDecls ds)) = ExtractStyles k conf (some (joinDecls ds2)) := by
  rw [ExtractStyles_joinDecls k conf ds hsemi,
    ExtractStyles_joinDecls k conf ds2 (fun d hd => hsemi d (hperm.mem_iff.mpr hd))]
  have hpw : ds.Pairwise (fun a b => ∀ f ∈ entryTarget k a, ∀ f2 ∈ entryTarget k b, f ≠ f2) :=
    List.pairwise_filterMap.mp htargets
  have hsymm : Symmetric (fun a b : String =>
      ∀ f ∈ entryTarget k a, ∀ f2 ∈ entryTarget k b, f ≠ f2) :=
    fun a b hab f hf f2 hf2 e => hab f2 hf2 f hf e.symm
  refine List.Perm.foldl_eq' hperm ?_ NewHtmlStyle
  intro x hx y hy z
  by_cases hxy : x = y
  · rw [hxy]
  · exact applyEntry_comm k conf z x y (hpw.forall hsymm hx hy hxy)

/-- Witness of C6 at the declarations "width:50px", "text-align:center" and
"font-weight:bold" in two orders. -/
theorem ExtractStyles_order_independent_witness :
    ExtractStyles specConsts unitConfig
        (some (joinDecls ["width:50px", "text-align:center", "font-weight:bold"])) =
      ExtractStyles specConsts unitConfig
        (some (joinDecls ["font-weight:bold", "width:50px", "text-align:center"])) :=
  ExtractStyles_order_independent specConsts unitConfig
    ["width:50px", "text-align:center", "font-weight:bold"]
    ["font-weight:bold", "width:50px", "text-align:center"]
    (by decide) (by decide) (by decide)

/-- C6 (counterexample): "min-width:10px" and "max-width:20px" have different
recognized property names and neither is a width or height declaration, yet the two
orders give the widths float64(10) * multiplier and float64(20) * multiplier. -/
theorem ExtractStyles_minmax_order_counterexample :
    ["min-width:10px", "max-width:20px"].Perm ["max-width:20px", "min-width:10px"] ∧
      (ExtractStyles specConsts unitConfig (some "min-width:10px;max-width:20px")).Width =
        F64.mul (F64.ofInt 10) unitConfig.PxToExcelWidthMultiplier ∧
      (ExtractStyles specConsts unitConfig (some "max-width:20px;min-width:10px")).Width =
        F64.mul (F64.ofInt 20) unitConfig.PxToExcelWidthMultiplier ∧
      ExtractStyles specConsts unitConfig (some "min-width:10px;max-width:20px") ≠
        ExtractStyles specConsts unitConfig (some "max-width:20px;min-width:10px") := by
  decide

/-! ## Header cells and image cells -/

theorem processHtmlTheadTh_no_write (k : Consts) (conf : Config)
    (hS : k.StringValueType ≠ "") (hF : k.FloatValueType ≠ "") (g : ExcelizeGenerator)
    (th : CellNode)
    (hth : (ExtractStyles k conf (Attribute th.attrs k.StyleAttrName)).CellValueType = "") :
    (processHtmlTheadTh k conf g th).OpenedFile.filter Call.isValueWrite =
      g.OpenedFile.filter Call.isValueWrite := by
  unfold processHtmlTheadTh
  cases hc : Attribute th.attrs k.ColspanAttrName <;>
    simp [hth, hS.symm, hF.symm, ExcelizeGenerator.ApplyColumnStyle,
      ExcelizeGenerator.ApplyCellStyle, Call.isValueWrite, List.filter_append]

theorem foldl_processHtmlTheadTh_no_write (k : Consts) (conf : Config)
    (hS : k.StringValueType ≠ "") (hF : k.FloatValueType ≠ "") (ths : List CellNode)
    (hth : ∀ th ∈ ths,
      (ExtractStyles k conf (Attribute th.attrs k.StyleAttrName)).CellValueType = "")
    (g : ExcelizeGenerator) :
    (ths.foldl (processHtmlTheadTh k conf) g).OpenedFile.filter Call.isValueWrite =
      g.OpenedFile.filter Call.isValueWrite := by
  induction ths generalizing g with
  | nil => rfl
  | cons th rest ih =>
    rw [List.foldl_cons, ih (fun t ht => hth t (by simp [ht])),
      processHtmlTheadTh_no_write k conf hS hF g th (hth th (by simp))]

theorem processHtmlTheadTr_no_write (k : Consts) (conf : Config)
    (hS : k.StringValueType ≠ "") (hF : k.FloatValueType ≠ "") (tr : RowNode)
    (hth : ∀ th ∈ tr.ths,
      (ExtractStyles k conf (Attribute th.attrs k.StyleAttrName)).CellValueType = "")
    (g : ExcelizeGenerator) :
    (processHtmlTheadTr k conf g tr).OpenedFile.filter Call.isValueWrite =
      g.OpenedFile.filter Call.isValueWrite := by
  unfold processHtmlTheadTr
  have h := foldl_processHtmlTheadTh_no_write k conf hS hF tr.ths hth g.AddRow
  cases hs : Attribute tr.attrs k.StyleAttrName with
  | none => simpa [ExcelizeGenerator.AddRow] using h
  | some st =>
    simp only [ExcelizeGenerator.ApplyRowStyle, List.filter_append]
    rw [h]
    simp [ExcelizeGenerator.AddRow, Call.isValueWrite]

/-- C8 (the code at the failing inputs): when the string and float value types are
not the empty string, processHtmlTheadTag writes no text and no number for a header
whose cells resolve to the default value type, which is the empty string; this is the
case of every cell without a style attribute and hence without a value-type marker,
whatever its text content. -/
theorem processHtmlTheadTag_unmarked_cells_write_nothing (k : Consts) (conf : Config)
    (hS : k.StringValueType ≠ "") (hF : k.FloatValueType ≠ "") (theadTrs : List RowNode)
    (hth : ∀ tr ∈ theadTrs, ∀ th ∈ tr.ths,
      (ExtractStyles k conf (Attribute th.attrs k.StyleAttrName)).CellValueType = "")
    (g : ExcelizeGenerator) :
    (processHtmlTheadTag k conf theadTrs g).OpenedFile.filter Call.isValueWrite =
      g.OpenedFile.filter Call.isValueWrite := by
  unfold processHtmlTheadTag
  induction theadTrs generalizing g with
  | nil => rfl
  | cons tr rest ih =>
    rw [List.foldl_cons, ih (fun t ht => hth t (by simp [ht])),
      processHtmlTheadTr_no_write k conf hS hF tr (hth tr (by simp)) g]

/-- Witness of C8 at a header of one row with the single cell "Name", which has no
attribute: nothing is written. -/
theorem processHtmlTheadTag_unmarked_cells_write_nothing_witness :
    (processHtmlTheadTag specConsts unitConfig [⟨[], [⟨[], "Name", []⟩], []⟩]
        ⟨[], "", "DataSheet 0", 1, 0⟩).OpenedFile.filter Call.isValueWrite =
      (⟨[], "", "DataSheet 0", 1, 0⟩ : ExcelizeGenerator).OpenedFile.filter
        Call.isValueWrite :=
  processHtmlTheadTag_unmarked_cells_write_nothing specConsts unitConfig (by decide)
    (by decide) [⟨[], [⟨[], "Name", []⟩], []⟩] (by decide) ⟨[], "", "DataSheet 0", 1, 0⟩

/-- C9 (the code at the failing inputs): for an image whose src path does not exist,
addImageToCell writes the alt text at the cursor and then still calls AddPicture with
that path: the operations appended to the document are exactly these two. -/
theorem addImageToCell_missing_file_still_adds_picture (env : Env) (img : ImgNode)
    (g : ExcelizeGenerator) (hmissing : env.Stat img.src = StatResult.notExist) :
    (addImageToCell env img g).OpenedFile =
      g.OpenedFile ++
        [Call.SetCellValue g.CurrentSheet g.CurrentCol g.CurrentRow img.alt,
          Call.AddPicture g.CurrentSheet g.CurrentCol g.CurrentRow img.src pictureFormat] := by
  unfold addImageToCell
  simp [hmissing, ExcelizeGenerator.SetCellValue]

/-- Witness of C9 at the image of the spec, src "missing.png" and alt "N/A". -/
theorem addImageToCell_missing_file_still_adds_picture_witness :
    (addImageToCell ⟨fun _ => StatResult.notExist⟩ ⟨"missing.png", "N/A"⟩
        ⟨[], "", "DataSheet 0", 1, 1⟩).OpenedFile =
      (⟨[], "", "DataSheet 0", 1, 1⟩ : ExcelizeGenerator).OpenedFile ++
        [Call.SetCellValue "DataSheet 0" 1 1 "N/A",
          Call.AddPicture "DataSheet 0" 1 1 "missing.png" pictureFormat] :=
  addImageToCell_missing_file_still_adds_picture ⟨fun _ => StatResult.notExist⟩
    ⟨"missing.png", "N/A"⟩ ⟨[], "", "DataSheet 0", 1, 1⟩ rfl

end HtmlToExcel
